import Mathlib

/-!
# Copy-on-write fork of JOS (lib/fork.c, lib/syscall.c) and the monitor helpers (kern/monitor.c)

A shallow embedding of the user-level fork library of the repository:
`syscall` and its stubs (lib/syscall.c), `pgfault`, `duppage` and `fork`
(lib/fork.c).  User code runs against a machine interface (`Machine`) that
answers system calls, shows the read-only page-table mirror `uvpt` and performs
user memory copies; every system call and every memory copy is recorded, in
order, in an event log so that statements about which calls are issued, and in
which order, can be made.  The kernel is a parameter of the code; a reference
model of its mapping primitives (`refMachine`) gives the statements about
frames and their contents.

The helpers of the kernel monitor (kern/monitor.c) are pure functions on
strings and on a memory of 32-bit words: `str2unum`, `num2binstr`, `char2perm`,
`str2perm`, `validate_and_retrieve` and `change_permissions`.
-/

namespace Jos

/-! ## Constants of the headers -/

/-- Modelled from the spec: inc/mmu.h is not among the sources; the page size
of the x86 (4096 bytes, one page of the paged address space). -/
def PGSIZE : Nat := 4096

/-- Modelled from the spec: inc/mmu.h is not among the sources; log2 of the
page size. -/
def PGSHIFT : Nat := 12

/-- Modelled from the spec: inc/mmu.h is not among the sources; the Present
bit of an x86 page-table entry. -/
def PTE_P : Nat := 0x001

/-- Modelled from the spec: inc/mmu.h is not among the sources; the Writeable
bit of an x86 page-table entry. -/
def PTE_W : Nat := 0x002

/-- Modelled from the spec: inc/mmu.h is not among the sources; the User bit of
an x86 page-table entry. -/
def PTE_U : Nat := 0x004

/-- The copy-on-write marker, `#define PTE_COW 0x800` of lib/fork.c. -/
def PTE_COW : Nat := 0x800

/-- Modelled from the spec: inc/mmu.h is not among the sources; the bit of the
x86 page-fault error code that says the fault was caused by a write. -/
def FEC_WR : Nat := 0x2

/-- Modelled from the spec: inc/memlayout.h is not among the sources; the
reserved scratch slot used by the fault handler
(`UTEMP + PTSIZE - PGSIZE` with `UTEMP = 0x400000`, `PTSIZE = 0x400000`). -/
def PFTEMP : Nat := 0x7ff000

/-- Modelled from the spec: inc/env.h is not among the sources; the number of
entries of the `envs` array (`1 << LOG2NENV`, `LOG2NENV = 10`). -/
def NENV : Nat := 1024

/-- Width of the machine word of the target (32 bits). -/
def WORD : Nat := 2 ^ 32

/-- Conversion of an `int32_t` to `uint32_t`, as the casts in the syscall
stubs do. -/
def toU32 (x : Int) : Nat := (x % (WORD : Int)).toNat

/-- Modelled from the spec: inc/types.h is not among the sources; the macro
`ROUNDDOWN(a, n)`, which rounds the 32-bit value `a` down to a multiple of `n`:
`a - a % n`. -/
def ROUNDDOWN (a n : Nat) : Nat := a - a % n

/-- Modelled from the spec: inc/env.h is not among the sources; the macro
`ENVX(envid)`, the index of an environment in `envs`: `envid & (NENV - 1)`. -/
def ENVX (envid : Int) : Nat := toU32 envid &&& (NENV - 1)

/-! ## Machine interface, events, outcomes -/

/-- The system call numbers (the enumeration of inc/syscall.h, with the
`SYS_fork` number this repository adds). -/
inductive SysNo where
  | SYS_cputs
  | SYS_cgetc
  | SYS_getenvid
  | SYS_env_destroy
  | SYS_page_alloc
  | SYS_page_map
  | SYS_page_unmap
  | SYS_exofork
  | SYS_env_set_status
  | SYS_env_set_pgfault_upcall
  | SYS_yield
  | SYS_ipc_try_send
  | SYS_ipc_recv
  | SYS_fork
  deriving DecidableEq, Repr

/-- What user code does that is visible outside it: a trap into the kernel
with a call number and five arguments, a copy of user memory, or the call of
the library routine that installs the page-fault handler. -/
inductive Event where
  | trap (num : SysNo) (a1 a2 a3 a4 a5 : Nat)
  | memmove (dst src n : Nat)
  | set_pgfault_handler
  deriving DecidableEq, Repr

/-- The environment user code runs in.  `trap` is the kernel: it receives the
call number and the five argument registers and answers with the value left in
`%eax` (an `int32_t`) and its new state.  `uvpt` is the read-only mirror of the
page table of the running environment, indexed by page number.  `memmove`
copies `n` bytes of user memory of the running environment from `src` to
`dst`. -/
structure Machine (σ : Type) where
  trap : σ → SysNo → Nat → Nat → Nat → Nat → Nat → Int × σ
  uvpt : σ → Nat → Nat
  memmove : σ → Nat → Nat → Nat → σ

/-- The state user code runs over: the kernel state, the log of events issued
so far (oldest first) and the user global `thisenv`, kept as the index of the
entry of `envs` it points to. -/
structure World (σ : Type) where
  k : σ
  log : List Event
  thisenv : Nat

/-- How a piece of user code ends: it returns a value or it calls `panic`,
which destroys the environment. -/
inductive Outcome (α : Type) where
  | ret (v : α)
  | panic
  deriving DecidableEq, Repr

/-- User code: a function from the world to an outcome and the world left. -/
abbrev Prog (σ α : Type) := World σ → Outcome α × World σ

/-- Sequencing: the continuation runs only when the first part returns. -/
def Prog.bind {σ α β : Type} (p : Prog σ α) (f : α → Prog σ β) : Prog σ β :=
  fun w =>
    match p w with
    | (Outcome.ret a, w1) => f a w1
    | (Outcome.panic, w1) => (Outcome.panic, w1)

/-- Plain return. -/
def Prog.pure {σ α : Type} (a : α) : Prog σ α := fun w => (Outcome.ret a, w)

/-- The call `panic(...)`. -/
def panic {σ α : Type} : Prog σ α := fun w => (Outcome.panic, w)

/-! ## lib/syscall.c -/

/-- The generic stub `syscall(num, check, a1, ..., a5)`: trap into the kernel,
take the value of `%eax` as `ret`, and `panic` when `check` is set and
`ret > 0`. -/
def syscall {σ : Type} (M : Machine σ) (num : SysNo) (check : Int)
    (a1 a2 a3 a4 a5 : Nat) : Prog σ Int :=
  fun w =>
    let r := M.trap w.k num a1 a2 a3 a4 a5
    let w1 : World σ := ⟨r.2, w.log ++ [Event.trap num a1 a2 a3 a4 a5], w.thisenv⟩
    if check ≠ 0 ∧ r.1 > 0 then (Outcome.panic, w1) else (Outcome.ret r.1, w1)

/-- The stub `sys_getenvid()`. -/
def sys_getenvid {σ : Type} (M : Machine σ) : Prog σ Int :=
  syscall M SysNo.SYS_getenvid 0 0 0 0 0 0

/-- The stub `sys_page_alloc(envid, va, perm)`. -/
def sys_page_alloc {σ : Type} (M : Machine σ) (envid : Int) (va perm : Nat) : Prog σ Int :=
  syscall M SysNo.SYS_page_alloc 1 (toU32 envid) va perm 0 0

/-- The stub `sys_page_map(srcenv, srcva, dstenv, dstva, perm)`. -/
def sys_page_map {σ : Type} (M : Machine σ) (srcenv : Int) (srcva : Nat)
    (dstenv : Int) (dstva perm : Nat) : Prog σ Int :=
  syscall M SysNo.SYS_page_map 1 (toU32 srcenv) srcva (toU32 dstenv) dstva perm

/-- The stub `sys_page_unmap(envid, va)`. -/
def sys_page_unmap {σ : Type} (M : Machine σ) (envid : Int) (va : Nat) : Prog σ Int :=
  syscall M SysNo.SYS_page_unmap 1 (toU32 envid) va 0 0 0

/-- The stub `sys_fork(end)`. -/
def sys_fork {σ : Type} (M : Machine σ) (end_ : Nat) : Prog σ Int :=
  syscall M SysNo.SYS_fork 1 end_ 0 0 0 0

/-! ## lib/fork.c -/

/-- The fields of `struct UTrapframe` that `pgfault` reads. -/
structure UTrapframe where
  utf_fault_va : Nat
  utf_err : Nat
  deriving DecidableEq, Repr

/-- The library call `memmove(dst, src, n)`, recorded in the log. -/
def memmove {σ : Type} (M : Machine σ) (dst src n : Nat) : Prog σ Unit :=
  fun w =>
    (Outcome.ret (), ⟨M.memmove w.k dst src n, w.log ++ [Event.memmove dst src n], w.thisenv⟩)

/-- The page-fault handler `pgfault(utf)`. -/
def pgfault {σ : Type} (M : Machine σ) (utf : UTrapframe) : Prog σ Unit :=
  fun w =>
    let addr := utf.utf_fault_va
    let err := utf.utf_err
    if err &&& FEC_WR = 0 ∨ M.uvpt w.k (addr >>> PGSHIFT) &&& PTE_COW = 0 then
      panic w
    else
      let tmp := PFTEMP
      let origin := ROUNDDOWN addr PGSIZE
      (Prog.bind (sys_page_alloc M 0 tmp PTE_W) fun r1 =>
        if r1 < 0 then panic else
        Prog.bind (memmove M tmp origin PGSIZE) fun _ =>
        Prog.bind (sys_page_map M 0 tmp 0 origin PTE_W) fun r2 =>
        if r2 < 0 then panic else
        Prog.bind (sys_page_unmap M 0 tmp) fun r3 =>
        if r3 < 0 then panic else Prog.pure ()) w

/-- The per-page policy `duppage(envid, pn)`. -/
def duppage {σ : Type} (M : Machine σ) (envid : Int) (pn : Nat) : Prog σ Int :=
  fun w =>
    let addr := (pn * PGSIZE) % WORD
    let pte := M.uvpt w.k pn
    if pte &&& PTE_P ≠ 0 ∧ pte &&& PTE_U ≠ 0 then
      if pte &&& PTE_W ≠ 0 ∨ pte &&& PTE_COW ≠ 0 then
        (Prog.bind (sys_page_map M 0 addr envid addr PTE_COW) fun r1 =>
          if r1 < 0 then panic else
          Prog.bind (sys_page_map M 0 addr 0 addr PTE_COW) fun r2 =>
          if r2 < 0 then panic else Prog.pure 0) w
      else
        (Prog.bind (sys_page_map M 0 addr envid addr 0) fun r1 =>
          if r1 < 0 then panic else Prog.pure 0) w
    else
      Prog.pure 0 w

/-- The call `set_pgfault_handler(pgfault)`: the routine of lib/pgfault.c is
not among the sources, so its body is the parameter `body`; the call itself is
recorded in the log before the body runs. -/
def set_pgfault_handler {σ : Type} (body : Prog σ Unit) : Prog σ Unit :=
  fun w => body ⟨w.k, w.log ++ [Event.set_pgfault_handler], w.thisenv⟩

/-- The library call `fork()`.  `body` is the body of `set_pgfault_handler`,
`end_` the address of the linker symbol `end`. -/
def fork {σ : Type} (M : Machine σ) (body : Prog σ Unit) (end_ : Nat) : Prog σ Int :=
  Prog.bind (set_pgfault_handler body) fun _ =>
  Prog.bind (sys_fork M end_) fun childid =>
  if childid < 0 then Prog.pure (-1)
  else if childid = 0 then
    Prog.bind (sys_getenvid M) fun id =>
    fun w => (Outcome.ret 0, ⟨w.k, w.log, ENVX id⟩)
  else Prog.pure childid

/-- The permission bits of a page-table entry: the entry without the address of
its frame (the macro `PERM` of kern/monitor.c, `pte - PTE_ADDR(pte)`). -/
def ptePerm (pte : Nat) : Nat := pte % PGSIZE

/-! ## A scripted machine, for evaluating the code on concrete inputs -/

/-- A machine whose kernel answers the traps with the values of a script, one
after the other (and with `0` once the script is used up), whose page-table
mirror is the fixed table `pt`, and whose memory copy leaves the script alone. -/
def scriptMachine (pt : Nat → Nat) : Machine (List Int) where
  trap := fun s _ _ _ _ _ _ => (s.headD 0, s.tail)
  uvpt := fun _ pn => pt pn
  memmove := fun s _ _ _ => s

/-- A piece of user code only appends to the event log. -/
def Prog.Appends {σ α : Type} (p : Prog σ α) : Prop :=
  ∀ w, ∃ rest, (p w).2.log = w.log ++ rest

/-! ## Reference model of the mapping primitives (spec section 6) -/

/-- One entry of the mapping relation kept by the mapping layer: environment
`env` has its page `vpn` mapped to the frame `frame` with permission `perm`. -/
structure Mapping where
  env : Nat
  vpn : Nat
  frame : Nat
  perm : Nat
  deriving DecidableEq, Repr

/-- The mapping of page `v` of environment `e`: its frame and permission. -/
def lookupMaps : List Mapping → Nat → Nat → Option (Nat × Nat)
  | [], _, _ => none
  | m :: ms, e, v =>
    if m.env = e ∧ m.vpn = v then some (m.frame, m.perm) else lookupMaps ms e v

/-- Removal of the mapping of page `v` of environment `e`. -/
def unsetMap (maps : List Mapping) (e v : Nat) : List Mapping :=
  maps.filter fun m => ¬ (m.env = e ∧ m.vpn = v)

/-- Page `v` of environment `e` is mapped to frame `f` with permission `p`; a
mapping that was there before is replaced, permission included. -/
def setMap (maps : List Mapping) (e v f p : Nat) : List Mapping :=
  ⟨e, v, f, p⟩ :: unsetMap maps e v

/-- A frame no mapping refers to: one past the largest frame in use. -/
def freshFrame : List Mapping → Nat
  | [] => 0
  | m :: ms => max (m.frame + 1) (freshFrame ms)

/-- Modelled from the spec: the kernel's mapping layer is not among the sources;
its state, after section 3 and section 6 of the spec: the running environment
`cur` (the one the alias `0` stands for), the relation "page `vpn` of `env`
refers to frame `frame` with permission `perm`", and the contents of the
frames, byte by byte (`mem frame offset`). -/
structure RefKernel where
  cur : Nat
  maps : List Mapping
  mem : Nat → Nat → Nat

/-- The mapping of page `v` of environment `e` in a kernel state. -/
def RefKernel.lookup (s : RefKernel) (e v : Nat) : Option (Nat × Nat) :=
  lookupMaps s.maps e v

/-- The environment an identifier names: `0` is the running environment. -/
def RefKernel.resolve (s : RefKernel) (e : Nat) : Nat := if e = 0 then s.cur else e

/-- The byte environment `e` observes at address `va`, when the page is
mapped. -/
def RefKernel.read (s : RefKernel) (e va : Nat) : Option Nat :=
  match s.lookup e (va / PGSIZE) with
  | some (f, _) => some (s.mem f (va % PGSIZE))
  | none => none

/-- A store of byte `b` at address `va` by the running environment through a
mapping that is writable; nothing is stored through a mapping that is missing
or not writable (such a store traps instead). -/
def RefKernel.store (s : RefKernel) (va b : Nat) : RefKernel :=
  match s.lookup s.cur (va / PGSIZE) with
  | some (f, p) =>
    if p &&& PTE_W ≠ 0 then
      ⟨s.cur, s.maps, fun g off => if g = f ∧ off = va % PGSIZE then b else s.mem g off⟩
    else s
  | none => s

/-- Copy of the first `n` bytes from `src` to `dst`: the bytes are read in the
state `s0` the copy started in, so that overlapping areas are handled as
`memmove` does. -/
def copyBytes (s0 : RefKernel) (dst src : Nat) : Nat → RefKernel → RefKernel
  | 0, s => s
  | n + 1, s =>
    match s0.read s0.cur (src + n) with
    | some b => (copyBytes s0 dst src n s).store (dst + n) b
    | none => copyBytes s0 dst src n s

/-- Modelled from the spec: the kernel's mapping layer is not among the sources;
the primitives of section 6 of the spec.  `page_alloc(e, va, perm)` maps a
fresh frame filled with zeroes at the page of `va`; `page_map(e1, va1, e2,
va2, perm)` makes the page of `va2` in `e2` refer to the frame of the page of
`va1` in `e1` with permission `perm`, replacing what was mapped there, and
fails with a negative status when the source page is not mapped;
`page_unmap(e, va)` removes the mapping; `resolve_own_identity` answers the
running environment.  The other calls are not part of the mapping layer and
are answered with a negative status. -/
def refTrap (s : RefKernel) (num : SysNo) (a1 a2 a3 a4 a5 : Nat) : Int × RefKernel :=
  match num with
  | SysNo.SYS_page_alloc =>
    (0, ⟨s.cur, setMap s.maps (s.resolve a1) (a2 / PGSIZE) (freshFrame s.maps) a3,
      fun g off => if g = freshFrame s.maps then 0 else s.mem g off⟩)
  | SysNo.SYS_page_map =>
    match s.lookup (s.resolve a1) (a2 / PGSIZE) with
    | some (f, _) => (0, ⟨s.cur, setMap s.maps (s.resolve a3) (a4 / PGSIZE) f a5, s.mem⟩)
    | none => (-3, s)
  | SysNo.SYS_page_unmap =>
    (0, ⟨s.cur, unsetMap s.maps (s.resolve a1) (a2 / PGSIZE), s.mem⟩)
  | SysNo.SYS_getenvid => ((s.cur : Int), s)
  | _ => (-3, s)

/-- Modelled from the spec: the read-only mirror of the page table of the
running environment: the entry of a mapped page is the address of its frame
together with the permission bits of the mapping and the Present and User bits
(a page an environment has mapped is present and user-accessible, whatever
permission the mapping call was given); the entry of a page that is not mapped
is `0`. -/
def refUvpt (s : RefKernel) (pn : Nat) : Nat :=
  match s.lookup s.cur pn with
  | some (f, p) => f * PGSIZE + (p ||| PTE_P ||| PTE_U) % PGSIZE
  | none => 0

/-- The machine user code runs on when the kernel is the reference model. -/
def refMachine : Machine RefKernel where
  trap := refTrap
  uvpt := refUvpt
  memmove := fun s dst src n => copyBytes s dst src n s

/-- Modelled from the spec: the trap layer is not among the sources; a store
of byte `b` at address `va` by the running environment.  Through a writable
mapping the byte lands in the frame.  Otherwise the store takes a write fault:
the handler `pgfault` runs with the faulting address and the error code of a
user write (`7` on a mapped page, `6` on a page that is not mapped; both carry
`FEC_WR`), and when it returns the store is tried again; when the handler panics the
environment is destroyed.  `none` means that the fuel ran out. -/
def userWrite : Nat → Nat → Nat → World RefKernel → Option (Outcome Unit × World RefKernel)
  | 0, _, _, _ => none
  | fuel + 1, va, b, w =>
    let writable : Bool :=
      match w.k.lookup w.k.cur (va / PGSIZE) with
      | some (_, p) => decide (p &&& PTE_W ≠ 0)
      | none => false
    let err : Nat :=
      match w.k.lookup w.k.cur (va / PGSIZE) with
      | some _ => 7
      | none => 6
    if writable then some (Outcome.ret (), ⟨w.k.store va b, w.log, w.thisenv⟩)
    else
      match pgfault refMachine ⟨va, err⟩ w with
      | (Outcome.ret _, w1) => userWrite fuel va b w1
      | (Outcome.panic, w1) => some (Outcome.panic, w1)

/-! ## Stores of the parent and of the child -/

/-- The state in which the scratch page itself is COW-shared: environment 1
and its sibling 2 both map page `0x7ff` (the page of `PFTEMP`) to frame 5,
present, user-accessible and COW-marked. -/
def scratchShared : RefKernel :=
  ⟨1, [⟨1, 0x7ff, 5, 0x805⟩, ⟨2, 0x7ff, 5, 0x805⟩], fun _ _ => 0⟩

/-- A state with one COW-shared page: environment 1 and its sibling 2 both map
page `0x801` to frame 5, present, user-accessible and COW-marked; every byte of
the frame is `0`. -/
def cowShared : RefKernel :=
  ⟨1, [⟨1, 0x801, 5, 0x805⟩, ⟨2, 0x801, 5, 0x805⟩], fun _ _ => 0⟩

/-- The answer of the kernel to the page_alloc call of `pgfault`. -/
def allocAnswer {σ : Type} (M : Machine σ) (w : World σ) : Int × σ :=
  M.trap w.k SysNo.SYS_page_alloc 0 PFTEMP PTE_W 0 0

/-- The answer of the kernel to the page_map call of `pgfault`, issued after
the allocation and the copy. -/
def mapAnswer {σ : Type} (M : Machine σ) (utf : UTrapframe) (w : World σ) : Int × σ :=
  M.trap (M.memmove (allocAnswer M w).2 PFTEMP (ROUNDDOWN utf.utf_fault_va PGSIZE) PGSIZE)
    SysNo.SYS_page_map 0 PFTEMP 0 (ROUNDDOWN utf.utf_fault_va PGSIZE) PTE_W

/-- The answer of the kernel to the page_unmap call of `pgfault`. -/
def unmapAnswer {σ : Type} (M : Machine σ) (utf : UTrapframe) (w : World σ) : Int × σ :=
  M.trap (mapAnswer M utf w).2 SysNo.SYS_page_unmap 0 PFTEMP 0 0 0

/-- The answer of the kernel to the first page_map call of `duppage`, the one
into the child, with permission `perm`. -/
def childMapAnswer {σ : Type} (M : Machine σ) (envid : Int) (pn perm : Nat) (w : World σ) :
    Int × σ :=
  M.trap w.k SysNo.SYS_page_map 0 (pn * PGSIZE % WORD) (toU32 envid) (pn * PGSIZE % WORD) perm

/-- The answer of the kernel to the second page_map call of `duppage`, the one
onto the caller itself. -/
def selfMapAnswer {σ : Type} (M : Machine σ) (envid : Int) (pn : Nat) (w : World σ) :
    Int × σ :=
  M.trap (childMapAnswer M envid pn PTE_COW w).2 SysNo.SYS_page_map 0 (pn * PGSIZE % WORD) 0
    (pn * PGSIZE % WORD) PTE_COW

/-! ## kern/monitor.c: helpers of the monitor commands

A C string is the list of its characters before the terminating NUL; an
argument vector is the list of its strings.  Values of type `int` are integers
wrapped to 32 bits in two's complement; values of type `uint32_t` and
`uintptr_t` are naturals below `2 ^ 32`. -/

/-- Modelled from the spec: inc/mmu.h is not among the sources; the
Write-Through bit of an x86 page-table entry. -/
def PTE_PWT : Nat := 0x008

/-- Modelled from the spec: inc/mmu.h is not among the sources; the
Cache-Disable bit of an x86 page-table entry. -/
def PTE_PCD : Nat := 0x010

/-- Modelled from the spec: inc/mmu.h is not among the sources; the Accessed
bit of an x86 page-table entry. -/
def PTE_A : Nat := 0x020

/-- Modelled from the spec: inc/mmu.h is not among the sources; the Dirty bit
of an x86 page-table entry. -/
def PTE_D : Nat := 0x040

/-- Modelled from the spec: inc/mmu.h is not among the sources; the Global bit
of an x86 page-table entry. -/
def PTE_G : Nat := 0x100

/-- The value of an `int` expression: the integer wrapped to 32 bits in two's
complement. -/
def wrapI32 (x : Int) : Int := (x + 2 ^ 31) % 2 ^ 32 - 2 ^ 31

/-- The operator `~` on a `uint32_t`. -/
def not32 (x : Nat) : Nat := x ^^^ (WORD - 1)

/-- The loop of `str2unum` for base 10: it consumes decimal digits and gives
back the rest of the string, where it stopped, and the value of `ret`. -/
def str2unumDec : List Char → Int → List Char × Int
  | [], ret => ([], ret)
  | c :: cs, ret =>
    if '0'.toNat ≤ c.toNat ∧ c.toNat ≤ '9'.toNat then
      str2unumDec cs (wrapI32 (10 * ret + ((c.toNat : Int) - ('0'.toNat : Int))))
    else (c :: cs, ret)

/-- The loop of `str2unum` for base 16: it consumes the digits `0`-`9` and
`a`-`f` and gives back the rest of the string and the value of `ret`. -/
def str2unumHex : List Char → Int → List Char × Int
  | [], ret => ([], ret)
  | c :: cs, ret =>
    if ('0'.toNat ≤ c.toNat ∧ c.toNat ≤ '9'.toNat) ∨
        ('a'.toNat ≤ c.toNat ∧ c.toNat ≤ 'f'.toNat) then
      str2unumHex cs (wrapI32 (16 * ret + ((c.toNat : Int) -
        (if c.toNat ≤ '9'.toNat then ('0'.toNat : Int) else ('a'.toNat : Int) - 10))))
    else (c :: cs, ret)

/-- The function `str2unum(str, base)`: the loop of the base, then `-1` when the
loop did not reach the end of the string and `ret` otherwise. -/
def str2unum (str : List Char) (base : Int) : Int :=
  let r : List Char × Int :=
    if base = 10 then str2unumDec str 0
    else if base = 16 then str2unumHex str 0
    else (str, 0)
  if r.1 ≠ [] then -1 else r.2

/-- The function `num2binstr(num, store, bit)`: the loop `while(bit)` with
`store[--bit] = num % 2 + '0'` and `num /= 2`.  The result is the buffer and
the number of iterations made; `none` means that the fuel ran out before the
loop ended. -/
def num2binstr : Nat → Nat → (Int → Char) → Int → Option ((Int → Char) × Nat)
  | 0, _, _, _ => none
  | fuel + 1, num, store, bit =>
    if bit ≠ 0 then
      match num2binstr fuel (num / 2)
          (fun i => if i = bit - 1 then Char.ofNat (num % 2 + '0'.toNat) else store i)
          (bit - 1) with
      | some (st, steps) => some (st, steps + 1)
      | none => none
    else some (store, 0)

/-- The function `char2perm(c)`; the default case returns `-1` as a
`uint32_t`. -/
def char2perm (c : Char) : Nat :=
  if c = 'G' then PTE_G
  else if c = 'D' then PTE_D
  else if c = 'A' then PTE_A
  else if c = 'C' then PTE_PCD
  else if c = 'T' then PTE_PWT
  else if c = 'U' then PTE_U
  else if c = 'W' then PTE_W
  else if c = 'P' then PTE_P
  else WORD - 1

/-- The loop of `str2perm`: `perm |= char2perm(*str++)`. -/
def str2permLoop : List Char → Nat → Nat
  | [], perm => perm
  | c :: cs, perm => str2permLoop cs (perm ||| char2perm c)

/-- The function `str2perm(str)`; `perm` is a `uint32_t`, so the test
`perm < 0` is a test on a natural number. -/
def str2perm (str : List Char) : Outcome Nat :=
  let perm := str2permLoop str 0
  if perm < 0 then Outcome.panic
  else Outcome.ret (perm &&& not32 (char2perm 'P'))

/-- The macro `IS_HEX(str)`: `str[0] == '0' && str[1] == 'x'`. -/
def IS_HEX (str : List Char) : Prop :=
  str.head? = some '0' ∧ (str.drop 1).head? = some 'x'

instance (str : List Char) : Decidable (IS_HEX str) := by
  unfold IS_HEX
  infer_instance

/-- The macro `HEX_VAL(str)`: `str2unum(str + 2, 16)`. -/
def HEX_VAL (str : List Char) : Int := str2unum (str.drop 2) 16

/-- The macro `DEC_VAL(str)`: `str2unum(str, 10)`. -/
def DEC_VAL (str : List Char) : Int := str2unum str 10

/-- Modelled from the spec: inc/types.h is not among the sources; the macro
`ROUNDUP(a, n)`, which rounds the 32-bit value `a` up to a multiple of `n`:
`ROUNDDOWN(a + n - 1, n)` in 32-bit arithmetic. -/
def ROUNDUP (a n : Nat) : Nat := ROUNDDOWN ((a + n - 1) % WORD) n

/-- The macro `START(str)`: `ROUNDDOWN(HEX_VAL(argv[1]), PGSIZE)`, stored in a
`uintptr_t`. -/
def START (argv : List (List Char)) : Nat :=
  ROUNDDOWN (toU32 (HEX_VAL (argv.getD 1 []))) PGSIZE

/-- The macro `N_PAGES(argc, va_start, argv)`, stored in a `uint32_t`: `1`
when `argc == 2`; with a hexadecimal third argument the distance from
`va_start` to that address rounded up, in pages, in unsigned 32-bit
arithmetic; with any other third argument its decimal value. -/
def N_PAGES (argc : Int) (va_start : Nat) (argv : List (List Char)) : Nat :=
  if argc = 2 then 1
  else if IS_HEX (argv.getD 2 []) then
    ((ROUNDUP (toU32 (HEX_VAL (argv.getD 2 []))) PGSIZE + WORD - va_start) % WORD) / PGSIZE
  else toU32 (DEC_VAL (argv.getD 2 []))

/-- The function `validate_and_retrieve(argc, argv, &va_start, &n_pages, hint)`;
it gives `va_start` and `n_pages`, both unsigned, so the last test compares
natural numbers with `0`. -/
def validate_and_retrieve (argc : Int) (argv : List (List Char)) : Outcome (Nat × Nat) :=
  if argc ≤ 1 then Outcome.panic
  else if ¬ IS_HEX (argv.getD 1 []) then Outcome.panic
  else
    let va_start := START argv
    let n_pages := N_PAGES argc va_start argv
    if va_start < 0 ∨ n_pages < 0 then Outcome.panic
    else Outcome.ret (va_start, n_pages)

/-- Modelled from the spec: inc/mmu.h is not among the sources; the macro
`PDX(va)`, the index of an address in the page directory. -/
def PDX (va : Nat) : Nat := (va >>> 22) &&& 0x3FF

/-- Modelled from the spec: inc/mmu.h is not among the sources; the macro
`PTX(va)`, the index of an address in its page table. -/
def PTX (va : Nat) : Nat := (va >>> 12) &&& 0x3FF

/-- Modelled from the spec: inc/mmu.h is not among the sources; the macro
`PTE_ADDR(pte)`, the address in a page-table or page-directory entry. -/
def PTE_ADDR (pte : Nat) : Nat := pte &&& not32 0xFFF

/-- What the monitor is linked against: the address `kern_pgdir` of the page
directory, and the macro `KADDR` of kern/pmap.h, which is not among the
sources: it turns a physical address into a kernel virtual address and panics
(`none`) on an address it refuses. -/
structure KernLayout where
  kern_pgdir : Nat
  KADDR : Nat → Option Nat

/-- One pass of the loop of `change_permissions`, for page number `cnt` of the
range, on the memory `mem` of 32-bit words: when the directory entry and the
table entry of the page are present, the table entry gets `perm` set
(`op` true) or cleared (`op` false). -/
def changeOne (L : KernLayout) (va_start perm : Nat) (op : Bool) (cnt : Nat)
    (mem : Nat → Nat) : Outcome Unit × (Nat → Nat) :=
  let va := (va_start + cnt * PGSIZE) % WORD
  let pde := mem (L.kern_pgdir + 4 * PDX va)
  if pde &&& PTE_P ≠ 0 then
    match L.KADDR (PTE_ADDR pde) with
    | none => (Outcome.panic, mem)
    | some table =>
      let va_pte := table + 4 * PTX va
      if mem va_pte &&& PTE_P ≠ 0 then
        (Outcome.ret (), fun x =>
          if x = va_pte then
            (if op then mem va_pte ||| perm else mem va_pte &&& not32 perm)
          else mem x)
      else (Outcome.ret (), mem)
  else (Outcome.ret (), mem)

/-- The loop `for(cnt = 0; cnt < n_pages; cnt++)` of `change_permissions`:
`todo` passes are left, the next one is for `cnt`. -/
def changeLoop (L : KernLayout) (va_start perm : Nat) (op : Bool) :
    Nat → Nat → (Nat → Nat) → Outcome Unit × (Nat → Nat)
  | 0, _, mem => (Outcome.ret (), mem)
  | todo + 1, cnt, mem =>
    match changeOne L va_start perm op cnt mem with
    | (Outcome.ret _, mem1) => changeLoop L va_start perm op todo (cnt + 1) mem1
    | (Outcome.panic, mem1) => (Outcome.panic, mem1)

/-- The function `change_permissions(argc, argv, op, hint)` on the memory
`mem`: the range is validated with `argc - 1`, the permission is read from the
last argument, and the loop runs over the pages of the range. -/
def change_permissions (L : KernLayout) (argc : Int) (argv : List (List Char)) (op : Bool)
    (mem : Nat → Nat) : Outcome Unit × (Nat → Nat) :=
  match validate_and_retrieve (argc - 1) argv with
  | Outcome.panic => (Outcome.panic, mem)
  | Outcome.ret (va_start, n_pages) =>
    match str2perm (argv.getD (argc - 1).toNat []) with
    | Outcome.panic => (Outcome.panic, mem)
    | Outcome.ret perm => changeLoop L va_start perm op n_pages 0 mem

/-! ## What a string of digits denotes -/

/-- A decimal digit, `'0'` to `'9'`. -/
@[reducible]
def isDec (c : Char) : Prop := '0'.toNat ≤ c.toNat ∧ c.toNat ≤ '9'.toNat

/-- A hexadecimal digit as `str2unum` accepts them: `'0'` to `'9'` or `'a'` to
`'f'`. -/
@[reducible]
def isHex (c : Char) : Prop := isDec c ∨ ('a'.toNat ≤ c.toNat ∧ c.toNat ≤ 'f'.toNat)

/-- The value of a decimal digit. -/
def decDigit (c : Char) : Nat := c.toNat - '0'.toNat

/-- The value of a hexadecimal digit. -/
def hexDigit (c : Char) : Nat :=
  if c.toNat ≤ '9'.toNat then c.toNat - '0'.toNat else c.toNat - 'a'.toNat + 10

/-- The number a string of decimal digits denotes, most significant digit
first. -/
def decimalValue (s : List Char) : Nat := Nat.ofDigits 10 (s.map decDigit).reverse

/-- The number a string of hexadecimal digits denotes, most significant digit
first. -/
def hexValue (s : List Char) : Nat := Nat.ofDigits 16 (s.map hexDigit).reverse

/-! ## How the stubs run -/

/-- The stub with `check = 1`, when the kernel answers a value that is not
positive: that value is returned and the trap is logged. -/
theorem syscall_check_nonpos {σ : Type} (M : Machine σ) (num : SysNo)
    (a1 a2 a3 a4 a5 : Nat) (w : World σ)
    (h : (M.trap w.k num a1 a2 a3 a4 a5).1 ≤ 0) :
    syscall M num 1 a1 a2 a3 a4 a5 w =
      (Outcome.ret (M.trap w.k num a1 a2 a3 a4 a5).1,
        ⟨(M.trap w.k num a1 a2 a3 a4 a5).2,
          w.log ++ [Event.trap num a1 a2 a3 a4 a5], w.thisenv⟩) := by
  simp [syscall, not_lt.mpr h]

/-- The stub with `check = 1`, when the kernel answers a positive value: the
stub panics. -/
theorem syscall_check_pos {σ : Type} (M : Machine σ) (num : SysNo)
    (a1 a2 a3 a4 a5 : Nat) (w : World σ)
    (h : 0 < (M.trap w.k num a1 a2 a3 a4 a5).1) :
    syscall M num 1 a1 a2 a3 a4 a5 w =
      (Outcome.panic,
        ⟨(M.trap w.k num a1 a2 a3 a4 a5).2,
          w.log ++ [Event.trap num a1 a2 a3 a4 a5], w.thisenv⟩) := by
  simp [syscall, h]

/-- The stub with `check = 0` returns whatever the kernel answers. -/
theorem syscall_nocheck {σ : Type} (M : Machine σ) (num : SysNo)
    (a1 a2 a3 a4 a5 : Nat) (w : World σ) :
    syscall M num 0 a1 a2 a3 a4 a5 w =
      (Outcome.ret (M.trap w.k num a1 a2 a3 a4 a5).1,
        ⟨(M.trap w.k num a1 a2 a3 a4 a5).2,
          w.log ++ [Event.trap num a1 a2 a3 a4 a5], w.thisenv⟩) := by
  simp [syscall]

/-- Whenever the kernel answers the child-creation trap with a positive value,
the stub `sys_fork` panics and so does `fork`. -/
theorem fork_positive_child_panics {σ : Type} (M : Machine σ) (body : Prog σ Unit)
    (end_ : Nat) (w w1 : World σ)
    (hbody : set_pgfault_handler body w = (Outcome.ret (), w1))
    (hpos : 0 < (M.trap w1.k SysNo.SYS_fork end_ 0 0 0 0).1) :
    (fork M body end_ w).1 = Outcome.panic := by
  simp [fork, Prog.bind, hbody, sys_fork, syscall_check_pos M _ _ _ _ _ _ w1 hpos]

/-- C1 (evaluation at the failing input): the kernel answers the child-creation
trap with the positive child identifier 4097 in the parent; `fork` does not
return 4097, it panics inside the stub `syscall`, right after the trap. -/
theorem fork_parent_aborts_at_4097 :
    fork (scriptMachine fun _ => 0) (Prog.pure ()) 0x800000 ⟨[4097], [], 0⟩ =
      (Outcome.panic,
        ⟨[], [Event.set_pgfault_handler, Event.trap SysNo.SYS_fork 0x800000 0 0 0 0], 0⟩) := by
  rfl

/-- C2: when the body of the handler installation has returned and the kernel
answers the child-creation trap with a negative value, `fork` returns the
negative value `-1` (it does not panic), and the child-creation trap is the
last event it issues: no page_alloc, page_map or page_unmap follows it. -/
theorem fork_child_creation_failure {σ : Type} (M : Machine σ) (body : Prog σ Unit)
    (end_ : Nat) (w w1 : World σ)
    (hbody : set_pgfault_handler body w = (Outcome.ret (), w1))
    (hneg : (M.trap w1.k SysNo.SYS_fork end_ 0 0 0 0).1 < 0) :
    (fork M body end_ w).1 = Outcome.ret (-1) ∧ (-1 : Int) < 0 ∧
      (fork M body end_ w).2.log =
        w1.log ++ [Event.trap SysNo.SYS_fork end_ 0 0 0 0] ∧
      (fork M body end_ w).2.k = (M.trap w1.k SysNo.SYS_fork end_ 0 0 0 0).2 := by
  have h := syscall_check_nonpos M SysNo.SYS_fork end_ 0 0 0 0 w1 (le_of_lt hneg)
  simp [fork, Prog.bind, hbody, sys_fork, h, hneg, Prog.pure]

/-- Witness of C2: the kernel answers the child-creation trap with `-4`. -/
theorem fork_child_creation_failure_witness :
    (fork (scriptMachine fun _ => 0) (Prog.pure ()) 0x800000 ⟨[-4], [], 0⟩).1 = Outcome.ret (-1) ∧
      (-1 : Int) < 0 ∧
      (fork (scriptMachine fun _ => 0) (Prog.pure ()) 0x800000 ⟨[-4], [], 0⟩).2.log =
        [Event.set_pgfault_handler] ++ [Event.trap SysNo.SYS_fork 0x800000 0 0 0 0] ∧
      (fork (scriptMachine fun _ => 0) (Prog.pure ()) 0x800000 ⟨[-4], [], 0⟩).2.k = [] :=
  fork_child_creation_failure (scriptMachine fun _ => 0) (Prog.pure ()) 0x800000
    ⟨[-4], [], 0⟩ ⟨[-4], [Event.set_pgfault_handler], 0⟩ rfl (by decide)

/-- C3: when the body of the handler installation has returned and the kernel
answers the child-creation trap with `0` (the child), `fork` asks the kernel
for the identifier of the running environment, sets `thisenv` to the entry of
`envs` of index `ENVX` of that identifier, and returns `0`; the only trap it
issues after the child-creation trap is `SYS_getenvid`. -/
theorem fork_child_continuation {σ : Type} (M : Machine σ) (body : Prog σ Unit)
    (end_ : Nat) (w w1 : World σ)
    (hbody : set_pgfault_handler body w = (Outcome.ret (), w1))
    (hzero : (M.trap w1.k SysNo.SYS_fork end_ 0 0 0 0).1 = 0) :
    fork M body end_ w =
      (Outcome.ret 0,
        ⟨(M.trap (M.trap w1.k SysNo.SYS_fork end_ 0 0 0 0).2 SysNo.SYS_getenvid 0 0 0 0 0).2,
          w1.log ++ [Event.trap SysNo.SYS_fork end_ 0 0 0 0,
            Event.trap SysNo.SYS_getenvid 0 0 0 0 0],
          ENVX (M.trap (M.trap w1.k SysNo.SYS_fork end_ 0 0 0 0).2
            SysNo.SYS_getenvid 0 0 0 0 0).1⟩) := by
  have h := syscall_check_nonpos M SysNo.SYS_fork end_ 0 0 0 0 w1 (le_of_eq hzero)
  simp [fork, Prog.bind, hbody, sys_fork, h, hzero, sys_getenvid, syscall_nocheck]

/-- Witness of C3: the kernel answers the child-creation trap with `0` and the
identity query with `4098`, whose `ENVX` is `2`. -/
theorem fork_child_continuation_witness :
    fork (scriptMachine fun _ => 0) (Prog.pure ()) 0x800000 ⟨[0, 4098], [], 0⟩ =
      (Outcome.ret 0,
        ⟨(((scriptMachine fun _ => 0).trap (((scriptMachine fun _ => 0).trap
              [0, 4098] SysNo.SYS_fork 0x800000 0 0 0 0).2) SysNo.SYS_getenvid 0 0 0 0 0).2),
          [Event.set_pgfault_handler] ++ [Event.trap SysNo.SYS_fork 0x800000 0 0 0 0,
            Event.trap SysNo.SYS_getenvid 0 0 0 0 0],
          ENVX (((scriptMachine fun _ => 0).trap (((scriptMachine fun _ => 0).trap
              [0, 4098] SysNo.SYS_fork 0x800000 0 0 0 0).2) SysNo.SYS_getenvid 0 0 0 0 0).1)⟩) :=
  fork_child_continuation (scriptMachine fun _ => 0) (Prog.pure ()) 0x800000
    ⟨[0, 4098], [], 0⟩ ⟨[0, 4098], [Event.set_pgfault_handler], 0⟩ rfl rfl

/-! ## The per-page policy `duppage` -/

/-- The address of a page number of the 32-bit address space does not wrap. -/
theorem page_addr_u32 (pn : Nat) (hpn : pn < 2 ^ 20) : pn * PGSIZE % WORD = pn * PGSIZE := by
  apply Nat.mod_eq_of_lt
  simp only [PGSIZE, WORD]
  omega

/-- The run of `duppage` on a page that is present, user-accessible and
writable or COW-marked, when both mapping calls are answered with `0`. -/
theorem duppage_run {σ : Type} (M : Machine σ) (envid : Int) (pn : Nat)
    (w : World σ) (k1 k2 : σ) (hpn : pn < 2 ^ 20)
    (hP : M.uvpt w.k pn &&& PTE_P ≠ 0) (hU : M.uvpt w.k pn &&& PTE_U ≠ 0)
    (hWC : M.uvpt w.k pn &&& PTE_W ≠ 0 ∨ M.uvpt w.k pn &&& PTE_COW ≠ 0)
    (e1 : M.trap w.k SysNo.SYS_page_map 0 (pn * PGSIZE) (toU32 envid) (pn * PGSIZE) PTE_COW
      = (0, k1))
    (e2 : M.trap k1 SysNo.SYS_page_map 0 (pn * PGSIZE) 0 (pn * PGSIZE) PTE_COW = (0, k2)) :
    duppage M envid pn w =
      (Outcome.ret 0,
        ⟨k2, w.log ++
          [Event.trap SysNo.SYS_page_map 0 (pn * PGSIZE) (toU32 envid) (pn * PGSIZE) PTE_COW,
           Event.trap SysNo.SYS_page_map 0 (pn * PGSIZE) 0 (pn * PGSIZE) PTE_COW],
          w.thisenv⟩) := by
  have t0 : toU32 0 = 0 := by decide
  simp [duppage, hP, hU, hWC, page_addr_u32 pn hpn, Prog.bind, sys_page_map, syscall, t0,
    e1, e2, Prog.pure]

/-- C4: for a page whose entry is present, user-accessible and writable or
COW-marked, and when both mapping calls succeed, `duppage` returns `0` and
issues exactly two page_map traps: first from the caller (alias `0`) at
`pn * PGSIZE` into `envid` at the same address, then from the caller onto
itself at the same address; both carry the permission `PTE_COW`, which has the
COW marker set and the writable bit clear. -/
theorem duppage_writable_or_cow {σ : Type} (M : Machine σ) (envid : Int) (pn : Nat)
    (w : World σ) (k1 k2 : σ) (hpn : pn < 2 ^ 20)
    (hP : M.uvpt w.k pn &&& PTE_P ≠ 0) (hU : M.uvpt w.k pn &&& PTE_U ≠ 0)
    (hWC : M.uvpt w.k pn &&& PTE_W ≠ 0 ∨ M.uvpt w.k pn &&& PTE_COW ≠ 0)
    (e1 : M.trap w.k SysNo.SYS_page_map 0 (pn * PGSIZE) (toU32 envid) (pn * PGSIZE) PTE_COW
      = (0, k1))
    (e2 : M.trap k1 SysNo.SYS_page_map 0 (pn * PGSIZE) 0 (pn * PGSIZE) PTE_COW = (0, k2)) :
    duppage M envid pn w =
      (Outcome.ret 0,
        ⟨k2, w.log ++
          [Event.trap SysNo.SYS_page_map 0 (pn * PGSIZE) (toU32 envid) (pn * PGSIZE) PTE_COW,
           Event.trap SysNo.SYS_page_map 0 (pn * PGSIZE) 0 (pn * PGSIZE) PTE_COW],
          w.thisenv⟩) ∧
      PTE_COW &&& PTE_COW ≠ 0 ∧ PTE_COW &&& PTE_W = 0 :=
  ⟨duppage_run M envid pn w k1 k2 hpn hP hU hWC e1 e2, by decide, by decide⟩

/-- Witness of C4: page 1 with entry `0x807` (present, writable, user, already
COW-marked), child 4097, both mapping calls answered with `0`. -/
theorem duppage_writable_or_cow_witness :
    duppage (scriptMachine fun pn => if pn = 1 then 0x807 else 0) 4097 1 ⟨[0, 0], [], 0⟩ =
      (Outcome.ret 0,
        ⟨[], [] ++
          [Event.trap SysNo.SYS_page_map 0 (1 * PGSIZE) (toU32 4097) (1 * PGSIZE) PTE_COW,
           Event.trap SysNo.SYS_page_map 0 (1 * PGSIZE) 0 (1 * PGSIZE) PTE_COW],
          0⟩) ∧
      PTE_COW &&& PTE_COW ≠ 0 ∧ PTE_COW &&& PTE_W = 0 :=
  duppage_writable_or_cow (scriptMachine fun pn => if pn = 1 then 0x807 else 0) 4097 1
    ⟨[0, 0], [], 0⟩ [0] [] (by decide) (by decide) (by decide) (Or.inl (by decide)) rfl rfl

/-- C5 as stated fails: page 1 has the entry `0x005` (present, user, not
writable, not COW-marked), so its permission bits are `0x005`; the one page_map
trap `duppage` issues carries the permission `0`, not `0x005`. -/
theorem duppage_readonly_perm_not_kept :
    ((scriptMachine fun pn => if pn = 1 then 0x005 else 0).uvpt [0] 1 &&& PTE_P ≠ 0 ∧
      (scriptMachine fun pn => if pn = 1 then 0x005 else 0).uvpt [0] 1 &&& PTE_U ≠ 0 ∧
      (scriptMachine fun pn => if pn = 1 then 0x005 else 0).uvpt [0] 1 &&& PTE_W = 0 ∧
      (scriptMachine fun pn => if pn = 1 then 0x005 else 0).uvpt [0] 1 &&& PTE_COW = 0) ∧
    (duppage (scriptMachine fun pn => if pn = 1 then 0x005 else 0) 4097 1 ⟨[0], [], 0⟩).2.log
      = [Event.trap SysNo.SYS_page_map 0 4096 4097 4096 0] ∧
    ¬ (duppage (scriptMachine fun pn => if pn = 1 then 0x005 else 0) 4097 1 ⟨[0], [], 0⟩).2.log
      = [Event.trap SysNo.SYS_page_map 0 4096 4097 4096
          (ptePerm ((scriptMachine fun pn => if pn = 1 then 0x005 else 0).uvpt [0] 1))] := by
  decide

/-- C5 as amended: for a page whose entry is present, user-accessible, not
writable and not COW-marked, `duppage` issues exactly one trap, a page_map from
the caller (alias `0`) at `pn * PGSIZE` into `envid` at the same address with
the permission argument `0` (neither writable nor COW-marked), whatever the
kernel answers; no trap names the caller as destination, and when the call
succeeds `duppage` returns `0`. -/
theorem duppage_readonly {σ : Type} (M : Machine σ) (envid : Int) (pn : Nat)
    (w : World σ) (hpn : pn < 2 ^ 20)
    (hP : M.uvpt w.k pn &&& PTE_P ≠ 0) (hU : M.uvpt w.k pn &&& PTE_U ≠ 0)
    (hW : M.uvpt w.k pn &&& PTE_W = 0) (hC : M.uvpt w.k pn &&& PTE_COW = 0) :
    (duppage M envid pn w).2.log =
        w.log ++ [Event.trap SysNo.SYS_page_map 0 (pn * PGSIZE) (toU32 envid) (pn * PGSIZE) 0] ∧
      (duppage M envid pn w).2.k =
        (M.trap w.k SysNo.SYS_page_map 0 (pn * PGSIZE) (toU32 envid) (pn * PGSIZE) 0).2 ∧
      (0 : Nat) &&& PTE_W = 0 ∧ (0 : Nat) &&& PTE_COW = 0 ∧
      ((M.trap w.k SysNo.SYS_page_map 0 (pn * PGSIZE) (toU32 envid) (pn * PGSIZE) 0).1 = 0 →
        (duppage M envid pn w).1 = Outcome.ret 0) := by
  have t0 : toU32 0 = 0 := by decide
  have hc : M.uvpt w.k pn &&& PTE_P ≠ 0 ∧ M.uvpt w.k pn &&& PTE_U ≠ 0 := ⟨hP, hU⟩
  have hn : ¬ (M.uvpt w.k pn &&& PTE_W ≠ 0 ∨ M.uvpt w.k pn &&& PTE_COW ≠ 0) := by
    simp [hW, hC]
  have key : duppage M envid pn w =
      (if (M.trap w.k SysNo.SYS_page_map 0 (pn * PGSIZE) (toU32 envid) (pn * PGSIZE) 0).1 = 0
        then Outcome.ret 0 else Outcome.panic,
        ⟨(M.trap w.k SysNo.SYS_page_map 0 (pn * PGSIZE) (toU32 envid) (pn * PGSIZE) 0).2,
          w.log ++ [Event.trap SysNo.SYS_page_map 0 (pn * PGSIZE) (toU32 envid) (pn * PGSIZE) 0],
          w.thisenv⟩) := by
    simp only [duppage, hc, hn, if_true, if_false, page_addr_u32 pn hpn, Prog.bind,
      sys_page_map, syscall, t0]
    rcases lt_trichotomy
      (M.trap w.k SysNo.SYS_page_map 0 (pn * PGSIZE) (toU32 envid) (pn * PGSIZE) 0).1 0
      with h | h | h
    · simp [h, not_lt.mpr (le_of_lt h), ne_of_lt h, panic, hP, hU, hW, hC]
    · simp [h, Prog.pure, hP, hU, hW, hC]
    · simp [h, ne_of_gt h, hP, hU, hW, hC]
  refine ⟨by rw [key], by rw [key], by decide, by decide, ?_⟩
  intro h
  rw [key, if_pos h]

/-- Witness of amended C5: page 1 with entry `0x005`, child 4097. -/
theorem duppage_readonly_witness :
    (duppage (scriptMachine fun pn => if pn = 1 then 0x005 else 0) 4097 1 ⟨[0], [], 0⟩).2.log =
        [] ++ [Event.trap SysNo.SYS_page_map 0 (1 * PGSIZE) (toU32 4097) (1 * PGSIZE) 0] ∧
      (duppage (scriptMachine fun pn => if pn = 1 then 0x005 else 0) 4097 1 ⟨[0], [], 0⟩).2.k =
        ((scriptMachine fun pn => if pn = 1 then 0x005 else 0).trap [0] SysNo.SYS_page_map 0
          (1 * PGSIZE) (toU32 4097) (1 * PGSIZE) 0).2 ∧
      (0 : Nat) &&& PTE_W = 0 ∧ (0 : Nat) &&& PTE_COW = 0 ∧
      (((scriptMachine fun pn => if pn = 1 then 0x005 else 0).trap [0] SysNo.SYS_page_map 0
          (1 * PGSIZE) (toU32 4097) (1 * PGSIZE) 0).1 = 0 →
        (duppage (scriptMachine fun pn => if pn = 1 then 0x005 else 0) 4097 1
          ⟨[0], [], 0⟩).1 = Outcome.ret 0) :=
  duppage_readonly (scriptMachine fun pn => if pn = 1 then 0x005 else 0) 4097 1
    ⟨[0], [], 0⟩ (by decide) (by decide) (by decide) (by decide) (by decide)

/-- C6: for a page whose entry is not present or not user-accessible, whatever
its other bits, `duppage` returns `0` and leaves the world as it was: no trap
is issued, the kernel state (every mapping of every environment) is the same. -/
theorem duppage_absent_or_kernel {σ : Type} (M : Machine σ) (envid : Int) (pn : Nat)
    (w : World σ)
    (h : M.uvpt w.k pn &&& PTE_P = 0 ∨ M.uvpt w.k pn &&& PTE_U = 0) :
    duppage M envid pn w = (Outcome.ret 0, w) := by
  have hn : ¬ (M.uvpt w.k pn &&& PTE_P ≠ 0 ∧ M.uvpt w.k pn &&& PTE_U ≠ 0) := by
    rcases h with h | h <;> simp [h]
  simp only [duppage, hn, if_false, Prog.pure]

/-- Witness of C6: page 1 with entry `0x803` (present, writable, COW-marked, but
not user-accessible). -/
theorem duppage_absent_or_kernel_witness :
    duppage (scriptMachine fun pn => if pn = 1 then 0x803 else 0) 4097 1 ⟨[0], [], 0⟩ =
      (Outcome.ret 0, ⟨[0], [], 0⟩) :=
  duppage_absent_or_kernel (scriptMachine fun pn => if pn = 1 then 0x803 else 0) 4097 1
    ⟨[0], [], 0⟩ (Or.inr (by decide))

/-! ## The fault handler `pgfault` -/

theorem appends_pure {σ α : Type} (a : α) : (Prog.pure a : Prog σ α).Appends :=
  fun _ => ⟨[], by simp [Prog.pure]⟩

theorem appends_panic {σ α : Type} : (panic : Prog σ α).Appends :=
  fun _ => ⟨[], by simp [panic]⟩

theorem appends_syscall {σ : Type} (M : Machine σ) (num : SysNo) (check : Int)
    (a1 a2 a3 a4 a5 : Nat) : (syscall M num check a1 a2 a3 a4 a5).Appends := by
  intro w
  refine ⟨[Event.trap num a1 a2 a3 a4 a5], ?_⟩
  simp only [syscall]
  split_ifs <;> rfl

theorem appends_memmove {σ : Type} (M : Machine σ) (dst src n : Nat) :
    (memmove M dst src n).Appends :=
  fun _ => ⟨[Event.memmove dst src n], rfl⟩

theorem appends_bind {σ α β : Type} (p : Prog σ α) (f : α → Prog σ β)
    (hp : p.Appends) (hf : ∀ a, (f a).Appends) : (p.bind f).Appends := by
  intro w
  obtain ⟨r1, h1⟩ := hp w
  simp only [Prog.bind]
  rcases hpw : p w with ⟨o, w1⟩
  rw [hpw] at h1
  cases o with
  | ret a =>
    obtain ⟨r2, h2⟩ := hf a w1
    refine ⟨r1 ++ r2, ?_⟩
    simp only [h2]
    simp at h1
    rw [h1, List.append_assoc]
  | panic => exact ⟨r1, h1⟩

theorem appends_ite {σ α : Type} (c : Prop) [Decidable c] (p q : Prog σ α)
    (hp : p.Appends) (hq : q.Appends) : (if c then p else q).Appends := by
  split_ifs
  · exact hp
  · exact hq

/-- The stub leaves the trap in the log whether it returns or panics. -/
theorem syscall_log {σ : Type} (M : Machine σ) (num : SysNo) (check : Int)
    (a1 a2 a3 a4 a5 : Nat) (w : World σ) :
    (syscall M num check a1 a2 a3 a4 a5 w).2.log =
      w.log ++ [Event.trap num a1 a2 a3 a4 a5] := by
  simp only [syscall]
  split_ifs <;> rfl

/-- Once the guard of `pgfault` is passed the first event is the page_alloc
trap at `PFTEMP`, whatever happens afterwards. -/
theorem pgfault_starts_with_alloc {σ : Type} (M : Machine σ) (utf : UTrapframe) (w : World σ)
    (hW : utf.utf_err &&& FEC_WR ≠ 0)
    (hC : M.uvpt w.k (utf.utf_fault_va >>> PGSHIFT) &&& PTE_COW ≠ 0) :
    ∃ rest, (pgfault M utf w).2.log =
      w.log ++ Event.trap SysNo.SYS_page_alloc 0 PFTEMP PTE_W 0 0 :: rest := by
  have t0 : toU32 0 = 0 := by decide
  have hg : ¬ (utf.utf_err &&& FEC_WR = 0 ∨
      M.uvpt w.k (utf.utf_fault_va >>> PGSHIFT) &&& PTE_COW = 0) := by
    simp [hW, hC]
  have hlog := syscall_log M SysNo.SYS_page_alloc 1 0 PFTEMP PTE_W 0 0 w
  simp only [pgfault, hg, if_false, Prog.bind, sys_page_alloc, t0]
  rcases hs : syscall M SysNo.SYS_page_alloc 1 0 PFTEMP PTE_W 0 0 w with ⟨o, w1⟩
  rw [hs] at hlog
  simp only at hlog
  cases o with
  | panic => exact ⟨[], by simp [hlog]⟩
  | ret r1 =>
    have hk : (if r1 < 0 then (panic : Prog σ Unit) else
        Prog.bind (memmove M PFTEMP (ROUNDDOWN utf.utf_fault_va PGSIZE) PGSIZE) fun _ =>
        Prog.bind (sys_page_map M 0 PFTEMP 0 (ROUNDDOWN utf.utf_fault_va PGSIZE) PTE_W) fun r2 =>
        if r2 < 0 then panic else
        Prog.bind (sys_page_unmap M 0 PFTEMP) fun r3 =>
        if r3 < 0 then panic else Prog.pure ()).Appends := by
      apply appends_ite _ _ _ appends_panic
      apply appends_bind _ _ (appends_memmove _ _ _ _)
      intro _
      apply appends_bind _ _ (appends_syscall _ _ _ _ _ _ _ _)
      intro r2
      apply appends_ite _ _ _ appends_panic
      apply appends_bind _ _ (appends_syscall _ _ _ _ _ _ _ _)
      intro r3
      exact appends_ite _ _ _ appends_panic (appends_pure _)
    obtain ⟨rest, hrest⟩ := hk w1
    refine ⟨rest, ?_⟩
    simp only [sys_page_map, sys_page_unmap, t0] at hrest ⊢
    rw [hrest, hlog]
    simp

/-- C7: `pgfault` panics with the world untouched (no trap, no copy issued)
exactly when the fault is not a write fault or the entry of the page of the
faulting address lacks the COW marker; otherwise its first event is the
page_alloc trap at `PFTEMP`. -/
theorem pgfault_guard {σ : Type} (M : Machine σ) (utf : UTrapframe) (w : World σ) :
    (pgfault M utf w = (Outcome.panic, w) ↔
      (utf.utf_err &&& FEC_WR = 0 ∨
        M.uvpt w.k (utf.utf_fault_va >>> PGSHIFT) &&& PTE_COW = 0)) ∧
    ((utf.utf_err &&& FEC_WR = 0 ∨
        M.uvpt w.k (utf.utf_fault_va >>> PGSHIFT) &&& PTE_COW = 0) ∨
      ∃ rest, (pgfault M utf w).2.log =
        w.log ++ Event.trap SysNo.SYS_page_alloc 0 PFTEMP PTE_W 0 0 :: rest) := by
  by_cases hg : utf.utf_err &&& FEC_WR = 0 ∨
      M.uvpt w.k (utf.utf_fault_va >>> PGSHIFT) &&& PTE_COW = 0
  · refine ⟨⟨fun _ => hg, fun _ => ?_⟩, Or.inl hg⟩
    simp only [pgfault, hg, if_true, panic]
  · have hW : utf.utf_err &&& FEC_WR ≠ 0 := fun h => hg (Or.inl h)
    have hC : M.uvpt w.k (utf.utf_fault_va >>> PGSHIFT) &&& PTE_COW ≠ 0 :=
      fun h => hg (Or.inr h)
    obtain ⟨rest, hrest⟩ := pgfault_starts_with_alloc M utf w hW hC
    refine ⟨⟨fun h => ?_, fun h => absurd h hg⟩, Or.inr ⟨rest, hrest⟩⟩
    rw [h] at hrest
    have hlen := congrArg List.length hrest
    simp at hlen

/-- The run of `pgfault` past its guard when the three system calls are
answered with `0`. -/
theorem pgfault_run {σ : Type} (M : Machine σ) (utf : UTrapframe) (w : World σ)
    (k1 k3 k4 : σ)
    (hW : utf.utf_err &&& FEC_WR ≠ 0)
    (hC : M.uvpt w.k (utf.utf_fault_va >>> PGSHIFT) &&& PTE_COW ≠ 0)
    (e1 : M.trap w.k SysNo.SYS_page_alloc 0 PFTEMP PTE_W 0 0 = (0, k1))
    (e3 : M.trap (M.memmove k1 PFTEMP (ROUNDDOWN utf.utf_fault_va PGSIZE) PGSIZE)
      SysNo.SYS_page_map 0 PFTEMP 0 (ROUNDDOWN utf.utf_fault_va PGSIZE) PTE_W = (0, k3))
    (e4 : M.trap k3 SysNo.SYS_page_unmap 0 PFTEMP 0 0 0 = (0, k4)) :
    pgfault M utf w =
      (Outcome.ret (),
        ⟨k4, w.log ++
          [Event.trap SysNo.SYS_page_alloc 0 PFTEMP PTE_W 0 0,
           Event.memmove PFTEMP (ROUNDDOWN utf.utf_fault_va PGSIZE) PGSIZE,
           Event.trap SysNo.SYS_page_map 0 PFTEMP 0 (ROUNDDOWN utf.utf_fault_va PGSIZE) PTE_W,
           Event.trap SysNo.SYS_page_unmap 0 PFTEMP 0 0 0],
          w.thisenv⟩) := by
  have t0 : toU32 0 = 0 := by decide
  have hg : ¬ (utf.utf_err &&& FEC_WR = 0 ∨
      M.uvpt w.k (utf.utf_fault_va >>> PGSHIFT) &&& PTE_COW = 0) := by
    simp [hW, hC]
  simp [pgfault, hg, Prog.bind, sys_page_alloc, sys_page_map, sys_page_unmap,
    syscall, memmove, t0, Prog.pure, e1, e3, e4]

/-- C8: for a write fault on a COW-marked page, when the three system calls
succeed, `pgfault` returns and issues exactly these events, in this order:
page_alloc for the caller (alias `0`) at `PFTEMP` with permission `PTE_W`; the
copy of `PGSIZE` bytes from the faulting address rounded down to its page to
`PFTEMP`; page_map from the caller at `PFTEMP` to the caller at the rounded
address with permission `PTE_W`; page_unmap of `PFTEMP` for the caller.
`PTE_W` is writable and carries no COW marker. -/
theorem pgfault_repair_sequence {σ : Type} (M : Machine σ) (utf : UTrapframe) (w : World σ)
    (k1 k3 k4 : σ)
    (hW : utf.utf_err &&& FEC_WR ≠ 0)
    (hC : M.uvpt w.k (utf.utf_fault_va >>> PGSHIFT) &&& PTE_COW ≠ 0)
    (e1 : M.trap w.k SysNo.SYS_page_alloc 0 PFTEMP PTE_W 0 0 = (0, k1))
    (e3 : M.trap (M.memmove k1 PFTEMP (ROUNDDOWN utf.utf_fault_va PGSIZE) PGSIZE)
      SysNo.SYS_page_map 0 PFTEMP 0 (ROUNDDOWN utf.utf_fault_va PGSIZE) PTE_W = (0, k3))
    (e4 : M.trap k3 SysNo.SYS_page_unmap 0 PFTEMP 0 0 0 = (0, k4)) :
    pgfault M utf w =
      (Outcome.ret (),
        ⟨k4, w.log ++
          [Event.trap SysNo.SYS_page_alloc 0 PFTEMP PTE_W 0 0,
           Event.memmove PFTEMP (ROUNDDOWN utf.utf_fault_va PGSIZE) PGSIZE,
           Event.trap SysNo.SYS_page_map 0 PFTEMP 0 (ROUNDDOWN utf.utf_fault_va PGSIZE) PTE_W,
           Event.trap SysNo.SYS_page_unmap 0 PFTEMP 0 0 0],
          w.thisenv⟩) ∧
      PTE_W &&& PTE_W ≠ 0 ∧ PTE_W &&& PTE_COW = 0 :=
  ⟨pgfault_run M utf w k1 k3 k4 hW hC e1 e3 e4, by decide, by decide⟩

/-- Witness of C8: a write fault (error code 7) at address `0x801234`, whose
page `0x801` is COW-marked; the three system calls are answered with `0`. -/
theorem pgfault_repair_sequence_witness :
    pgfault (scriptMachine fun pn => if pn = 0x801 then 0x805 else 0) ⟨0x801234, 7⟩
        ⟨[0, 0, 0], [], 0⟩ =
      (Outcome.ret (),
        ⟨[], [] ++
          [Event.trap SysNo.SYS_page_alloc 0 PFTEMP PTE_W 0 0,
           Event.memmove PFTEMP (ROUNDDOWN (UTrapframe.mk 0x801234 7).utf_fault_va PGSIZE) PGSIZE,
           Event.trap SysNo.SYS_page_map 0 PFTEMP 0
            (ROUNDDOWN (UTrapframe.mk 0x801234 7).utf_fault_va PGSIZE) PTE_W,
           Event.trap SysNo.SYS_page_unmap 0 PFTEMP 0 0 0],
          0⟩) ∧
      PTE_W &&& PTE_W ≠ 0 ∧ PTE_W &&& PTE_COW = 0 :=
  pgfault_repair_sequence (scriptMachine fun pn => if pn = 0x801 then 0x805 else 0)
    ⟨0x801234, 7⟩ ⟨[0, 0, 0], [], 0⟩ [0, 0] [0] [] (by decide) (by decide) rfl rfl rfl

/-! ## The reference model: mappings -/

theorem lookup_unsetMap (maps : List Mapping) (e v e1 v1 : Nat) :
    lookupMaps (unsetMap maps e v) e1 v1 =
      if e1 = e ∧ v1 = v then none else lookupMaps maps e1 v1 := by
  induction maps with
  | nil => simp [unsetMap, lookupMaps]
  | cons m ms ih =>
    simp only [unsetMap] at ih
    by_cases hm : m.env = e ∧ m.vpn = v
    · have hf : (m :: ms).filter (fun m => decide ¬ (m.env = e ∧ m.vpn = v)) =
          ms.filter (fun m => decide ¬ (m.env = e ∧ m.vpn = v)) := by
        rw [List.filter_cons_of_neg]; simp [hm]
      simp only [unsetMap, hf, ih, lookupMaps]
      by_cases h1 : e1 = e ∧ v1 = v
      · simp [h1]
      · have : ¬ (m.env = e1 ∧ m.vpn = v1) := by
          rw [hm.1, hm.2]; exact fun h => h1 ⟨h.1.symm, h.2.symm⟩
        simp [h1, this]
    · have hf : (m :: ms).filter (fun m => decide ¬ (m.env = e ∧ m.vpn = v)) =
          m :: ms.filter (fun m => decide ¬ (m.env = e ∧ m.vpn = v)) := by
        rw [List.filter_cons_of_pos]; simp [hm]
      simp only [unsetMap, hf, ih, lookupMaps]
      by_cases h1 : e1 = e ∧ v1 = v
      · have : ¬ (m.env = e1 ∧ m.vpn = v1) := by
          rw [h1.1, h1.2]; exact hm
        obtain ⟨rfl, rfl⟩ := h1
        simp [this]
      · simp [h1]

theorem lookup_setMap (maps : List Mapping) (e v f p e1 v1 : Nat) :
    lookupMaps (setMap maps e v f p) e1 v1 =
      if e1 = e ∧ v1 = v then some (f, p) else lookupMaps maps e1 v1 := by
  simp only [setMap, lookupMaps, lookup_unsetMap]
  by_cases h1 : e1 = e ∧ v1 = v
  · simp [h1]
  · have : ¬ (e = e1 ∧ v = v1) := fun h => h1 ⟨h.1.symm, h.2.symm⟩
    simp [h1, this]

theorem lookup_lt_freshFrame (maps : List Mapping) (e v f p : Nat)
    (h : lookupMaps maps e v = some (f, p)) : f < freshFrame maps := by
  induction maps with
  | nil => simp [lookupMaps] at h
  | cons m ms ih =>
    simp only [lookupMaps] at h
    simp only [freshFrame]
    split_ifs at h with hm
    · simp only [Option.some.injEq, Prod.mk.injEq] at h
      omega
    · have := ih h
      omega

/-- The permission bits of the entry the mirror shows are those of the mapping. -/
theorem pte_and_mask (f p m : Nat) (hm : m < PGSIZE) :
    (f * PGSIZE + p % PGSIZE) &&& m = p &&& m := by
  have hm2 : m < 2 ^ 12 := by simpa [PGSIZE] using hm
  have e : f * PGSIZE + p % PGSIZE = 2 ^ 12 * f + p % 2 ^ 12 := by
    simp only [PGSIZE]; omega
  rw [e]
  apply Nat.eq_of_testBit_eq
  intro j
  have hlt : p % 2 ^ 12 < 2 ^ 12 := Nat.mod_lt _ (by norm_num)
  rw [Nat.testBit_and, Nat.testBit_and, Nat.testBit_mul_pow_two_add f hlt j]
  by_cases hj : j < 12
  · have h4 : (p % 2 ^ 12).testBit j = p.testBit j := by
      rw [Nat.testBit_mod_two_pow]; simp [hj]
    simp only [hj, if_true, h4]
  · have : m.testBit j = false := by
      apply Nat.testBit_lt_two_pow
      calc m < 2 ^ 12 := hm2
        _ ≤ 2 ^ j := Nat.pow_le_pow_right (by norm_num) (by omega)
    simp [this]

/-! ## The reference model: memory copies -/

theorem store_cur (s : RefKernel) (va b : Nat) : (s.store va b).cur = s.cur := by
  simp only [RefKernel.store]
  split
  · split_ifs <;> rfl
  · rfl

theorem store_maps (s : RefKernel) (va b : Nat) : (s.store va b).maps = s.maps := by
  simp only [RefKernel.store]
  split
  · split_ifs <;> rfl
  · rfl

theorem copyBytes_cur (s0 : RefKernel) (dst src n : Nat) (s : RefKernel) :
    (copyBytes s0 dst src n s).cur = s.cur := by
  induction n with
  | zero => rfl
  | succ n ih =>
    simp only [copyBytes]
    split
    · rw [store_cur, ih]
    · exact ih

theorem copyBytes_maps (s0 : RefKernel) (dst src n : Nat) (s : RefKernel) :
    (copyBytes s0 dst src n s).maps = s.maps := by
  induction n with
  | zero => rfl
  | succ n ih =>
    simp only [copyBytes]
    split
    · rw [store_maps, ih]
    · exact ih

theorem page_of_offset (a n : Nat) (ha : a % PGSIZE = 0) (hn : n < PGSIZE) :
    (a + n) / PGSIZE = a / PGSIZE ∧ (a + n) % PGSIZE = n := by
  simp only [PGSIZE] at *
  omega

/-- A copy of `n` bytes between two page-aligned addresses, the destination
mapped writable to frame `G` and the source mapped to frame `Fs`: the first `n`
bytes of `G` become those of `Fs`, nothing else changes. -/
theorem copyBytes_mem (s0 : RefKernel) (dst src n G pG Fs pS : Nat)
    (hd : dst % PGSIZE = 0) (hs : src % PGSIZE = 0) (hn : n ≤ PGSIZE)
    (hG : s0.lookup s0.cur (dst / PGSIZE) = some (G, pG)) (hW : pG &&& PTE_W ≠ 0)
    (hF : s0.lookup s0.cur (src / PGSIZE) = some (Fs, pS)) (g off : Nat) :
    (copyBytes s0 dst src n s0).mem g off =
      if g = G ∧ off < n then s0.mem Fs off else s0.mem g off := by
  induction n generalizing g off with
  | zero => simp [copyBytes]
  | succ n ih =>
    have hn1 : n < PGSIZE := by omega
    obtain ⟨hsp, hso⟩ := page_of_offset src n hs hn1
    obtain ⟨hdp, hdo⟩ := page_of_offset dst n hd hn1
    have hread : s0.read s0.cur (src + n) = some (s0.mem Fs n) := by
      simp only [RefKernel.read, hsp, hF, hso]
    have hlk : (copyBytes s0 dst src n s0).lookup (copyBytes s0 dst src n s0).cur
        ((dst + n) / PGSIZE) = some (G, pG) := by
      simp only [RefKernel.lookup, copyBytes_cur, copyBytes_maps, hdp]
      exact hG
    simp only [copyBytes, hread, RefKernel.store, hlk, hW, ne_eq, not_false_eq_true, if_true,
      hdo]
    rw [ih (by omega)]
    by_cases hg : g = G
    · by_cases ho : off = n
      · simp [hg, ho]
      · by_cases ho2 : off < n
        · have : off < n + 1 := by omega
          simp [hg, ho, ho2, this]
        · have : ¬ off < n + 1 := by omega
          simp [hg, ho, ho2, this]
    · simp [hg]

/-! ## The fault handler on the reference model -/

theorem rounddown_page (a : Nat) :
    ROUNDDOWN a PGSIZE % PGSIZE = 0 ∧ ROUNDDOWN a PGSIZE / PGSIZE = a / PGSIZE := by
  simp only [ROUNDDOWN, PGSIZE]
  omega

theorem shift_is_page (a : Nat) : a >>> PGSHIFT = a / PGSIZE := by
  simp [PGSHIFT, PGSIZE, Nat.shiftRight_eq_div_pow]

/-- The entry the mirror shows for a mapped page carries the COW marker exactly
when the mapping does. -/
theorem refUvpt_cow (s : RefKernel) (pn F perm : Nat)
    (hF : s.lookup s.cur pn = some (F, perm)) :
    refMachine.uvpt s pn &&& PTE_COW = perm &&& PTE_COW := by
  simp only [refMachine, refUvpt, hF]
  rw [pte_and_mask F _ PTE_COW (by decide), Nat.and_distrib_right, Nat.and_distrib_right]
  have h1 : PTE_P &&& PTE_COW = 0 := by decide
  have h2 : PTE_U &&& PTE_COW = 0 := by decide
  rw [h1, h2, Nat.or_zero, Nat.or_zero]

/-- The handler on the reference model, for a write fault of the running
environment on a page it has mapped with the COW marker: it returns, and the
state it leaves is described mapping by mapping and frame by frame.  The page
of the scratch slot is unmapped, the faulting page refers to the fresh frame
with permission `PTE_W`, every other mapping is as before; the frames that
were in use keep their contents, and the fresh frame holds the copy of the
faulting page when that page is not the scratch page itself. -/
theorem pgfault_ref (s : RefKernel) (log : List Event) (te a err pn F perm : Nat)
    (hW : err &&& FEC_WR ≠ 0) (hpn : a / PGSIZE = pn)
    (hF : s.lookup s.cur pn = some (F, perm)) (hC : perm &&& PTE_COW ≠ 0) :
    ∃ k4 : RefKernel,
      pgfault refMachine ⟨a, err⟩ ⟨s, log, te⟩ =
        (Outcome.ret (),
          ⟨k4, log ++
            [Event.trap SysNo.SYS_page_alloc 0 PFTEMP PTE_W 0 0,
             Event.memmove PFTEMP (ROUNDDOWN a PGSIZE) PGSIZE,
             Event.trap SysNo.SYS_page_map 0 PFTEMP 0 (ROUNDDOWN a PGSIZE) PTE_W,
             Event.trap SysNo.SYS_page_unmap 0 PFTEMP 0 0 0], te⟩) ∧
      k4.cur = s.cur ∧
      (∀ e v, k4.lookup e v =
        if e = s.cur ∧ v = PFTEMP / PGSIZE then none
        else if e = s.cur ∧ v = pn then some (freshFrame s.maps, PTE_W)
        else s.lookup e v) ∧
      (∀ g off, g ≠ freshFrame s.maps → k4.mem g off = s.mem g off) ∧
      (pn ≠ PFTEMP / PGSIZE → ∀ off, off < PGSIZE →
        k4.mem (freshFrame s.maps) off = s.mem F off) := by
  obtain ⟨hro, hrp⟩ := rounddown_page a
  rw [hpn] at hrp
  have hFG : F ≠ freshFrame s.maps := Nat.ne_of_lt (lookup_lt_freshFrame s.maps _ _ _ _ hF)
  -- the state after the allocation
  let k1 : RefKernel := ⟨s.cur, setMap s.maps s.cur (PFTEMP / PGSIZE) (freshFrame s.maps) PTE_W,
    fun g off => if g = freshFrame s.maps then 0 else s.mem g off⟩
  have e1 : refMachine.trap s SysNo.SYS_page_alloc 0 PFTEMP PTE_W 0 0 = (0, k1) := by
    simp [refMachine, refTrap, RefKernel.resolve, k1]
  -- the state after the copy
  let k2 : RefKernel := refMachine.memmove k1 PFTEMP (ROUNDDOWN a PGSIZE) PGSIZE
  have hk2c : k2.cur = s.cur := copyBytes_cur k1 _ _ _ k1
  have hk2m : k2.maps = k1.maps := copyBytes_maps k1 _ _ _ k1
  have hk1t : k1.lookup k1.cur (PFTEMP / PGSIZE) = some (freshFrame s.maps, PTE_W) := by
    simp [RefKernel.lookup, k1, lookup_setMap]
  let k3 : RefKernel := ⟨s.cur, setMap k1.maps s.cur pn (freshFrame s.maps) PTE_W, k2.mem⟩
  have e3 : refMachine.trap k2 SysNo.SYS_page_map 0 PFTEMP 0 (ROUNDDOWN a PGSIZE) PTE_W
      = (0, k3) := by
    have hl : k2.lookup k2.cur (PFTEMP / PGSIZE) = some (freshFrame s.maps, PTE_W) := by
      simp only [RefKernel.lookup, hk2c, hk2m]
      exact hk1t
    simp only [refMachine, refTrap, RefKernel.resolve, if_true]
    simp only [refMachine] at hl hk2c hk2m
    rw [hl]
    simp only [hk2c, hk2m, hrp, k3]
  let k4 : RefKernel := ⟨s.cur, unsetMap k3.maps s.cur (PFTEMP / PGSIZE), k2.mem⟩
  have e4 : refMachine.trap k3 SysNo.SYS_page_unmap 0 PFTEMP 0 0 0 = (0, k4) := by
    simp [refMachine, refTrap, RefKernel.resolve, k3, k4]
  have hCu : refMachine.uvpt s ((UTrapframe.mk a err).utf_fault_va >>> PGSHIFT) &&& PTE_COW ≠ 0 := by
    rw [shift_is_page]
    simp only [hpn]
    rw [refUvpt_cow s pn F perm hF]
    exact hC
  refine ⟨k4, pgfault_run refMachine ⟨a, err⟩ ⟨s, log, te⟩ k1 k3 k4 hW hCu e1 e3 e4,
    rfl, ?_, ?_, ?_⟩
  · intro e v
    simp only [RefKernel.lookup, k4, k3, k1, lookup_unsetMap, lookup_setMap]
    by_cases h1 : e = s.cur ∧ v = PFTEMP / PGSIZE
    · simp [h1]
    · by_cases h2 : e = s.cur ∧ v = pn
      · simp [h1, h2]
      · simp [h1, h2]
  · intro g off hg
    have hd : PFTEMP % PGSIZE = 0 := by decide
    have hsrc : ∃ Fs pS, k1.lookup k1.cur (ROUNDDOWN a PGSIZE / PGSIZE) = some (Fs, pS) := by
      rw [hrp]
      simp only [RefKernel.lookup, k1, lookup_setMap]
      by_cases h : pn = PFTEMP / PGSIZE
      · exact ⟨freshFrame s.maps, PTE_W, by simp [h]⟩
      · exact ⟨F, perm, by simp [h]; exact hF⟩
    obtain ⟨Fs, pS, hFs⟩ := hsrc
    have := copyBytes_mem k1 PFTEMP (ROUNDDOWN a PGSIZE) PGSIZE (freshFrame s.maps) PTE_W Fs pS
      hd hro (le_refl _) hk1t (by decide) hFs g off
    simp only [k4, k2, refMachine]
    rw [this]
    simp [hg, k1]
  · intro hne off hoff
    have hd : PFTEMP % PGSIZE = 0 := by decide
    have hFs : k1.lookup k1.cur (ROUNDDOWN a PGSIZE / PGSIZE) = some (F, perm) := by
      rw [hrp]
      simp only [RefKernel.lookup, k1, lookup_setMap]
      simp [hne]
      exact hF
    have := copyBytes_mem k1 PFTEMP (ROUNDDOWN a PGSIZE) PGSIZE (freshFrame s.maps) PTE_W F perm
      hd hro (le_refl _) hk1t (by decide) hFs (freshFrame s.maps) off
    simp only [k4, k2, refMachine]
    rw [this]
    simp [hoff, k1, hFG]

/-! ## Private copy on a write fault -/

/-- C9 as stated fails on the scratch page: environment 1 has the page of
`PFTEMP` COW-marked and shares its frame 5 with the sibling 2; the handler, run
for a write fault at `PFTEMP`, returns (all three calls succeed), and afterwards
environment 1 has no mapping at all for the faulting page, so the page is not
mapped to a private writable copy. -/
theorem pgfault_scratch_page_lost :
    (scratchShared.lookup 1 0x7ff = some (5, 0x805) ∧
      scratchShared.lookup 2 0x7ff = some (5, 0x805) ∧ 0x805 &&& PTE_COW ≠ 0 ∧
      PFTEMP / PGSIZE = 0x7ff ∧ 7 &&& FEC_WR ≠ 0) ∧
    (pgfault refMachine ⟨PFTEMP, 7⟩ ⟨scratchShared, [], 0⟩).1 = Outcome.ret () ∧
    ¬ ∃ G p, (pgfault refMachine ⟨PFTEMP, 7⟩ ⟨scratchShared, [], 0⟩).2.k.lookup 1 0x7ff
      = some (G, p) := by
  refine ⟨by decide, ?_⟩
  obtain ⟨k4, h, _, hl, _⟩ := pgfault_ref scratchShared [] 0 PFTEMP 7 0x7ff 5 0x805
    (by decide) (by decide) (by decide) (by decide)
  rw [h]
  refine ⟨rfl, ?_⟩
  rintro ⟨G, p, hG⟩
  have h1 : (1 : Nat) = scratchShared.cur ∧ (0x7ff : Nat) = PFTEMP / PGSIZE := by decide
  have := hl 1 0x7ff
  rw [if_pos h1] at this
  simp only at hG
  rw [hG] at this
  exact Option.noConfusion this

/-- C9 as amended: on the reference model, environment `A` runs, its page `pn`,
which is not the scratch page of `PFTEMP`, is COW-marked and refers to the frame
`F` that the sibling `B` has mapped at `pn` too.  For a write fault at any
address of the page the handler returns, and afterwards: `A` has the page mapped
to a frame `G` different from `F`, writable and without the COW marker, whose
`PGSIZE` bytes are those of `F` at fault time; the mapping of `B` (frame `F`,
its permission) and the contents of `F` are as before; the scratch page is not
mapped in `A`. -/
theorem pgfault_private_copy (s : RefKernel) (log : List Event)
    (te A B a err pn F permA permB : Nat)
    (hcur : s.cur = A) (hAB : A ≠ B)
    (hW : err &&& FEC_WR ≠ 0) (hpn : a / PGSIZE = pn) (hscr : pn ≠ PFTEMP / PGSIZE)
    (hA : s.lookup A pn = some (F, permA)) (hC : permA &&& PTE_COW ≠ 0)
    (hB : s.lookup B pn = some (F, permB)) :
    ∃ w1 G p, pgfault refMachine ⟨a, err⟩ ⟨s, log, te⟩ = (Outcome.ret (), w1) ∧
      w1.k.lookup A pn = some (G, p) ∧ G ≠ F ∧ p &&& PTE_W ≠ 0 ∧ p &&& PTE_COW = 0 ∧
      (∀ off, off < PGSIZE → w1.k.mem G off = s.mem F off) ∧
      w1.k.lookup B pn = some (F, permB) ∧ (∀ off, w1.k.mem F off = s.mem F off) ∧
      w1.k.lookup A (PFTEMP / PGSIZE) = none := by
  subst hcur
  obtain ⟨k4, h, _, hl, hm, hcopy⟩ := pgfault_ref s log te a err pn F permA hW hpn hA hC
  have hFG : F ≠ freshFrame s.maps := Nat.ne_of_lt (lookup_lt_freshFrame s.maps _ _ _ _ hA)
  have hBA : ¬ (B = s.cur ∧ pn = PFTEMP / PGSIZE) := fun h => hAB h.1.symm
  have hBA2 : ¬ (B = s.cur ∧ pn = pn) := fun h => hAB h.1.symm
  refine ⟨_, freshFrame s.maps, PTE_W, h, ?_, fun h => hFG h.symm, by decide, by decide,
    hcopy hscr, ?_, fun off => hm F off hFG, ?_⟩
  · simp only [hl, hscr, and_false, if_false, and_self, if_true]
  · rw [hl, if_neg hBA, if_neg hBA2]
    exact hB
  · simp only [hl, and_self, if_true]

/-- Witness of amended C9: the state `cowShared`, a write fault (error code 7)
of environment 1 at address `0x801234`. -/
theorem pgfault_private_copy_witness :
    ∃ w1 G p, pgfault refMachine ⟨0x801234, 7⟩ ⟨cowShared, [], 0⟩ = (Outcome.ret (), w1) ∧
      w1.k.lookup 1 0x801 = some (G, p) ∧ G ≠ 5 ∧ p &&& PTE_W ≠ 0 ∧ p &&& PTE_COW = 0 ∧
      (∀ off, off < PGSIZE → w1.k.mem G off = cowShared.mem 5 off) ∧
      w1.k.lookup 2 0x801 = some (5, 0x805) ∧ (∀ off, w1.k.mem 5 off = cowShared.mem 5 off) ∧
      w1.k.lookup 1 (PFTEMP / PGSIZE) = none :=
  pgfault_private_copy cowShared [] 0 1 2 0x801234 7 0x801 5 0x805 0x805
    rfl (by decide) (by decide) (by decide) (by decide) (by decide) (by decide) (by decide)

/-! ## Sharing a page and writing to it, on the reference model -/

theorem store_lookup (s : RefKernel) (va b e v : Nat) :
    (s.store va b).lookup e v = s.lookup e v := by
  simp only [RefKernel.lookup, store_maps]

/-- A store by the running environment to a page it has mapped COW-marked and
not writable, on the reference model: with fuel for two faults the store ends
(done, or the environment destroyed); it touches no mapping of another
environment and no byte of a frame that was in use; it is done whenever the
page is not the scratch page; and when it is done the environment reads the
byte it stored. -/
theorem userWrite_cow (s : RefKernel) (log : List Event) (te fuel va b pn F perm : Nat)
    (hva : va / PGSIZE = pn) (hF : s.lookup s.cur pn = some (F, perm))
    (hnw : perm &&& PTE_W = 0) (hC : perm &&& PTE_COW ≠ 0) :
    ∃ o w2, userWrite (fuel + 2) va b ⟨s, log, te⟩ = some (o, w2) ∧
      w2.k.cur = s.cur ∧
      (∀ e v, e ≠ s.cur → w2.k.lookup e v = s.lookup e v) ∧
      (∀ g off, g < freshFrame s.maps → w2.k.mem g off = s.mem g off) ∧
      (pn ≠ PFTEMP / PGSIZE → o = Outcome.ret ()) ∧
      (o = Outcome.ret () → w2.k.read s.cur va = some b) := by
  obtain ⟨k4, h, hcur, hl, hm, _⟩ := pgfault_ref s log te va 7 pn F perm (by decide) hva hF hC
  have step1 : ∃ log1, userWrite (fuel + 2) va b ⟨s, log, te⟩ =
      userWrite (fuel + 1) va b ⟨k4, log1, te⟩ := by
    refine ⟨log ++
            [Event.trap SysNo.SYS_page_alloc 0 PFTEMP PTE_W 0 0,
             Event.memmove PFTEMP (ROUNDDOWN va PGSIZE) PGSIZE,
             Event.trap SysNo.SYS_page_map 0 PFTEMP 0 (ROUNDDOWN va PGSIZE) PTE_W,
             Event.trap SysNo.SYS_page_unmap 0 PFTEMP 0 0 0], ?_⟩
    rw [userWrite]
    simp only [hva, hF, hnw, ne_eq, not_true_eq_false, decide_False, Bool.false_eq_true,
      if_false, h]
  obtain ⟨log1, step1⟩ := step1
  rw [step1]
  have hothers : ∀ e v, e ≠ s.cur → k4.lookup e v = s.lookup e v := by
    intro e v he
    rw [hl]
    simp [he]
  have hframes : ∀ g off, g < freshFrame s.maps → k4.mem g off = s.mem g off :=
    fun g off hg => hm g off (Nat.ne_of_lt hg)
  by_cases hscr : pn = PFTEMP / PGSIZE
  · -- the page is the scratch page: it is unmapped now, the second fault is fatal
    have hk4 : k4.lookup k4.cur (va / PGSIZE) = none := by
      rw [hl, hcur, hva]
      simp [hscr]
    have hg : (6 : Nat) &&& FEC_WR = 0 ∨
        refMachine.uvpt k4 (va >>> PGSHIFT) &&& PTE_COW = 0 := by
      right
      rw [shift_is_page]
      simp only [refMachine, refUvpt, hk4]
      decide
    refine ⟨Outcome.panic, ⟨k4, log1, te⟩, ?_, hcur, hothers, hframes, fun h => absurd hscr h,
      fun h => Outcome.noConfusion h⟩
    rw [userWrite]
    simp only [hk4, Bool.false_eq_true, if_false, pgfault, hg, if_true, panic]
  · have hk4 : k4.lookup k4.cur (va / PGSIZE) = some (freshFrame s.maps, PTE_W) := by
      rw [hl, hcur, hva]
      simp [hscr]
    have hw : PTE_W &&& PTE_W ≠ 0 := by decide
    refine ⟨Outcome.ret (), ⟨k4.store va b, log1, te⟩, ?_, ?_, ?_, ?_, fun _ => rfl, fun _ => ?_⟩
    · rw [userWrite]
      simp only [hk4, hw, ne_eq, not_false_eq_true, decide_True, if_true]
    · simp only [store_cur, hcur]
    · intro e v he
      simp only [store_lookup]
      exact hothers e v he
    · intro g off hg
      simp only [RefKernel.store, hk4, hw, ne_eq, not_false_eq_true, if_true]
      simp only [Nat.ne_of_lt hg, false_and, if_false]
      exact hframes g off hg
    · simp only [RefKernel.read, store_lookup]
      rw [← hcur, hk4]
      simp only [RefKernel.store, hk4, hw, ne_eq, not_false_eq_true, if_true, and_self]

/-- The log of `fork` when the handler installation has returned and the kernel
answers the child-creation trap with a positive value: the trap, which carries
the address `end_`, is the last event. -/
theorem fork_parent_log {σ : Type} (M : Machine σ) (body : Prog σ Unit)
    (end_ : Nat) (w w1 : World σ)
    (hbody : set_pgfault_handler body w = (Outcome.ret (), w1))
    (hpos : 0 < (M.trap w1.k SysNo.SYS_fork end_ 0 0 0 0).1) :
    (fork M body end_ w).2.log = w1.log ++ [Event.trap SysNo.SYS_fork end_ 0 0 0 0] := by
  simp [fork, Prog.bind, hbody, sys_fork, syscall_check_pos M _ _ _ _ _ _ w1 hpos]

/-- C11 as stated fails: page 1 is mapped (entry `0x007`: present, writable,
user-accessible) and lies below the high-water mark `0x800000`; `duppage` for
the child 4097 would issue two page_map traps for it; `fork`, with the kernel
answering the child-creation trap with 4097, issues the handler installation
and the child-creation trap only, and no page_map trap for the page. -/
theorem fork_parent_skips_duppage :
    (scriptMachine fun pn => if pn = 1 then 0x007 else 0).uvpt [4097] 1 = 0x007 ∧
    1 * PGSIZE < 0x800000 ∧
    (duppage (scriptMachine fun pn => if pn = 1 then 0x007 else 0) 4097 1 ⟨[0, 0], [], 0⟩).2.log
      = [Event.trap SysNo.SYS_page_map 0 4096 4097 4096 PTE_COW,
         Event.trap SysNo.SYS_page_map 0 4096 0 4096 PTE_COW] ∧
    (fork (scriptMachine fun pn => if pn = 1 then 0x007 else 0) (Prog.pure ()) 0x800000
        ⟨[4097], [], 0⟩).2.log
      = [Event.set_pgfault_handler, Event.trap SysNo.SYS_fork 0x800000 0 0 0 0] ∧
    Event.trap SysNo.SYS_page_map 0 4096 4097 4096 PTE_COW ∉
      (fork (scriptMachine fun pn => if pn = 1 then 0x007 else 0) (Prog.pure ()) 0x800000
        ⟨[4097], [], 0⟩).2.log := by
  decide

/-- C11 as amended: in the parent continuation (the handler installation has
returned and the kernel answers the child-creation trap with a positive value)
`fork` applies no per-page duplication itself: after the handler installation
it issues one event only, the child-creation trap `SYS_fork`, whose first
argument is the high-water mark `end_`; no page_map trap is among the events it
issues after the handler installation. -/
theorem fork_parent_delegates_walk {σ : Type} (M : Machine σ) (body : Prog σ Unit)
    (end_ : Nat) (w w1 : World σ)
    (hbody : set_pgfault_handler body w = (Outcome.ret (), w1))
    (hpos : 0 < (M.trap w1.k SysNo.SYS_fork end_ 0 0 0 0).1) :
    (fork M body end_ w).2.log = w1.log ++ [Event.trap SysNo.SYS_fork end_ 0 0 0 0] ∧
      ∀ a1 a2 a3 a4 a5, Event.trap SysNo.SYS_page_map a1 a2 a3 a4 a5 ∉
        ((fork M body end_ w).2.log).drop w1.log.length := by
  rw [fork_parent_log M body end_ w w1 hbody hpos]
  simp

/-- Witness of amended C11: the kernel answers the child-creation trap with
4097. -/
theorem fork_parent_delegates_walk_witness :
    (fork (scriptMachine fun _ => 0) (Prog.pure ()) 0x800000 ⟨[4097], [], 0⟩).2.log =
        [Event.set_pgfault_handler] ++ [Event.trap SysNo.SYS_fork 0x800000 0 0 0 0] ∧
      ∀ a1 a2 a3 a4 a5, Event.trap SysNo.SYS_page_map a1 a2 a3 a4 a5 ∉
        ((fork (scriptMachine fun _ => 0) (Prog.pure ()) 0x800000 ⟨[4097], [], 0⟩).2.log).drop
          [Event.set_pgfault_handler].length :=
  fork_parent_delegates_walk (scriptMachine fun _ => 0) (Prog.pure ()) 0x800000
    ⟨[4097], [], 0⟩ ⟨[4097], [Event.set_pgfault_handler], 0⟩ rfl (by decide)

/-- C12 as stated fails: with the kernel answering the child-creation trap with
the child identifier 4097, the events of `fork` are the handler installation
and the child-creation trap; there is no page_alloc trap for the child, no
handler registration for the child and no set-status trap for the child,
whatever their other arguments. -/
theorem fork_parent_skips_child_setup :
    (fork (scriptMachine fun _ => 0) (Prog.pure ()) 0x800000 ⟨[4097], [], 0⟩).2.log
      = [Event.set_pgfault_handler, Event.trap SysNo.SYS_fork 0x800000 0 0 0 0] ∧
    (¬ ∃ a2 a3 a4 a5, Event.trap SysNo.SYS_page_alloc 4097 a2 a3 a4 a5 ∈
      (fork (scriptMachine fun _ => 0) (Prog.pure ()) 0x800000 ⟨[4097], [], 0⟩).2.log) ∧
    (¬ ∃ a2 a3 a4 a5, Event.trap SysNo.SYS_env_set_pgfault_upcall 4097 a2 a3 a4 a5 ∈
      (fork (scriptMachine fun _ => 0) (Prog.pure ()) 0x800000 ⟨[4097], [], 0⟩).2.log) ∧
    (¬ ∃ a2 a3 a4 a5, Event.trap SysNo.SYS_env_set_status 4097 a2 a3 a4 a5 ∈
      (fork (scriptMachine fun _ => 0) (Prog.pure ()) 0x800000 ⟨[4097], [], 0⟩).2.log) := by
  have h : (fork (scriptMachine fun _ => 0) (Prog.pure ()) 0x800000 ⟨[4097], [], 0⟩).2.log
      = [Event.set_pgfault_handler, Event.trap SysNo.SYS_fork 0x800000 0 0 0 0] := by decide
  rw [h]
  simp

/-- C12 as amended: in the parent continuation (the handler installation has
returned and the kernel answers the child-creation trap with a positive value)
`fork` issues, after the handler installation, no page_alloc trap, no
handler-registration trap and no set-status trap, for the child or for anyone:
the exception stack of the child, its handler and its status are left to the
kernel's child-creation call. -/
theorem fork_parent_no_child_setup {σ : Type} (M : Machine σ) (body : Prog σ Unit)
    (end_ : Nat) (w w1 : World σ)
    (hbody : set_pgfault_handler body w = (Outcome.ret (), w1))
    (hpos : 0 < (M.trap w1.k SysNo.SYS_fork end_ 0 0 0 0).1) :
    (∀ a1 a2 a3 a4 a5, Event.trap SysNo.SYS_page_alloc a1 a2 a3 a4 a5 ∉
        ((fork M body end_ w).2.log).drop w1.log.length) ∧
      (∀ a1 a2 a3 a4 a5, Event.trap SysNo.SYS_env_set_pgfault_upcall a1 a2 a3 a4 a5 ∉
        ((fork M body end_ w).2.log).drop w1.log.length) ∧
      (∀ a1 a2 a3 a4 a5, Event.trap SysNo.SYS_env_set_status a1 a2 a3 a4 a5 ∉
        ((fork M body end_ w).2.log).drop w1.log.length) := by
  rw [fork_parent_log M body end_ w w1 hbody hpos]
  simp

/-- Witness of amended C12: the kernel answers the child-creation trap with
4098. -/
theorem fork_parent_no_child_setup_witness :
    (∀ a1 a2 a3 a4 a5, Event.trap SysNo.SYS_page_alloc a1 a2 a3 a4 a5 ∉
        ((fork (scriptMachine fun _ => 0) (Prog.pure ()) 0x800000 ⟨[4098], [], 0⟩).2.log).drop
          [Event.set_pgfault_handler].length) ∧
      (∀ a1 a2 a3 a4 a5, Event.trap SysNo.SYS_env_set_pgfault_upcall a1 a2 a3 a4 a5 ∉
        ((fork (scriptMachine fun _ => 0) (Prog.pure ()) 0x800000 ⟨[4098], [], 0⟩).2.log).drop
          [Event.set_pgfault_handler].length) ∧
      (∀ a1 a2 a3 a4 a5, Event.trap SysNo.SYS_env_set_status a1 a2 a3 a4 a5 ∉
        ((fork (scriptMachine fun _ => 0) (Prog.pure ()) 0x800000 ⟨[4098], [], 0⟩).2.log).drop
          [Event.set_pgfault_handler].length) :=
  fork_parent_no_child_setup (scriptMachine fun _ => 0) (Prog.pure ()) 0x800000
    ⟨[4098], [], 0⟩ ⟨[4098], [Event.set_pgfault_handler], 0⟩ rfl (by decide)

/-! ## Failures of the system calls -/

/-- The stub with `check = 1` in terms of the answer of the kernel: it returns
the answer when the answer is not positive and panics otherwise; the trap is in
the log either way. -/
theorem syscall_check_eq {σ : Type} (M : Machine σ) (num : SysNo)
    (a1 a2 a3 a4 a5 : Nat) (w : World σ) :
    syscall M num 1 a1 a2 a3 a4 a5 w =
      (if 0 < (M.trap w.k num a1 a2 a3 a4 a5).1 then Outcome.panic
        else Outcome.ret (M.trap w.k num a1 a2 a3 a4 a5).1,
        ⟨(M.trap w.k num a1 a2 a3 a4 a5).2,
          w.log ++ [Event.trap num a1 a2 a3 a4 a5], w.thisenv⟩) := by
  by_cases h : 0 < (M.trap w.k num a1 a2 a3 a4 a5).1
  · rw [syscall_check_pos M num a1 a2 a3 a4 a5 w h, if_pos h]
  · rw [syscall_check_nonpos M num a1 a2 a3 a4 a5 w (not_lt.mp h), if_neg h]

/-- The outcome of `pgfault` in terms of the answers of the kernel: it panics
at the guard, or right after the first call that is not answered with `0`, and
returns when the three calls are answered with `0`. -/
theorem pgfault_outcome {σ : Type} (M : Machine σ) (utf : UTrapframe) (w : World σ) :
    pgfault M utf w =
      if utf.utf_err &&& FEC_WR = 0 ∨
          M.uvpt w.k (utf.utf_fault_va >>> PGSHIFT) &&& PTE_COW = 0 then
        (Outcome.panic, w)
      else if (allocAnswer M w).1 ≠ 0 then
        (Outcome.panic, ⟨(allocAnswer M w).2,
          w.log ++ [Event.trap SysNo.SYS_page_alloc 0 PFTEMP PTE_W 0 0], w.thisenv⟩)
      else if (mapAnswer M utf w).1 ≠ 0 then
        (Outcome.panic, ⟨(mapAnswer M utf w).2,
          w.log ++ [Event.trap SysNo.SYS_page_alloc 0 PFTEMP PTE_W 0 0,
            Event.memmove PFTEMP (ROUNDDOWN utf.utf_fault_va PGSIZE) PGSIZE,
            Event.trap SysNo.SYS_page_map 0 PFTEMP 0 (ROUNDDOWN utf.utf_fault_va PGSIZE) PTE_W],
          w.thisenv⟩)
      else
        (if (unmapAnswer M utf w).1 ≠ 0 then Outcome.panic else Outcome.ret (),
          ⟨(unmapAnswer M utf w).2,
          w.log ++ [Event.trap SysNo.SYS_page_alloc 0 PFTEMP PTE_W 0 0,
            Event.memmove PFTEMP (ROUNDDOWN utf.utf_fault_va PGSIZE) PGSIZE,
            Event.trap SysNo.SYS_page_map 0 PFTEMP 0 (ROUNDDOWN utf.utf_fault_va PGSIZE) PTE_W,
            Event.trap SysNo.SYS_page_unmap 0 PFTEMP 0 0 0],
          w.thisenv⟩) := by
  have t0 : toU32 0 = 0 := by decide
  by_cases hg : utf.utf_err &&& FEC_WR = 0 ∨
      M.uvpt w.k (utf.utf_fault_va >>> PGSHIFT) &&& PTE_COW = 0
  · simp only [pgfault, hg, if_true, panic]
  · rw [if_neg hg]
    rcases lt_trichotomy (allocAnswer M w).1 0 with h1 | h1 | h1
    · rw [if_pos (ne_of_lt h1)]
      simp only [allocAnswer] at h1
      simp [pgfault, hg, Prog.bind, sys_page_alloc, syscall, t0, allocAnswer, h1,
        not_lt.mpr (le_of_lt h1), panic]
    · rw [if_neg (not_not.mpr h1)]
      rcases lt_trichotomy (mapAnswer M utf w).1 0 with h2 | h2 | h2
      · rw [if_pos (ne_of_lt h2)]
        simp only [allocAnswer, mapAnswer] at h1 h2
        simp [pgfault, hg, Prog.bind, sys_page_alloc, sys_page_map, syscall, memmove, t0,
          allocAnswer, mapAnswer, h1, h2, not_lt.mpr (le_of_lt h2), panic]
      · rw [if_neg (not_not.mpr h2)]
        rcases lt_trichotomy (unmapAnswer M utf w).1 0 with h3 | h3 | h3
        · rw [if_pos (ne_of_lt h3)]
          simp only [allocAnswer, mapAnswer, unmapAnswer] at h1 h2 h3
          simp [pgfault, hg, Prog.bind, sys_page_alloc, sys_page_map, sys_page_unmap, syscall,
            memmove, t0, allocAnswer, mapAnswer, unmapAnswer, h1, h2, h3,
            not_lt.mpr (le_of_lt h3), panic]
        · rw [if_neg (not_not.mpr h3)]
          simp only [allocAnswer, mapAnswer, unmapAnswer] at h1 h2 h3
          simp [pgfault, hg, Prog.bind, sys_page_alloc, sys_page_map, sys_page_unmap, syscall,
            memmove, t0, allocAnswer, mapAnswer, unmapAnswer, h1, h2, h3, Prog.pure]
        · rw [if_pos (ne_of_gt h3)]
          simp only [allocAnswer, mapAnswer, unmapAnswer] at h1 h2 h3
          simp [pgfault, hg, Prog.bind, sys_page_alloc, sys_page_map, sys_page_unmap, syscall,
            memmove, t0, allocAnswer, mapAnswer, unmapAnswer, h1, h2, h3]
      · rw [if_pos (ne_of_gt h2)]
        simp only [allocAnswer, mapAnswer] at h1 h2
        simp [pgfault, hg, Prog.bind, sys_page_alloc, sys_page_map, syscall, memmove, t0,
          allocAnswer, mapAnswer, h1, h2]
    · rw [if_pos (ne_of_gt h1)]
      simp only [allocAnswer] at h1
      simp [pgfault, hg, Prog.bind, sys_page_alloc, syscall, t0, allocAnswer, h1]

/-- C13: for a write fault on a COW-marked page.  When page_alloc is answered
with a negative status `pgfault` panics with the page_alloc trap as its only
event (no copy, no page_map, no page_unmap); when page_alloc succeeds and
page_map is answered with a negative status it panics after the page_map trap,
without a page_unmap; when both succeed and page_unmap is answered with a
negative status it panics; and when `pgfault` returns, the three calls were
answered with `0`. -/
theorem pgfault_failures {σ : Type} (M : Machine σ) (utf : UTrapframe) (w : World σ)
    (hW : utf.utf_err &&& FEC_WR ≠ 0)
    (hC : M.uvpt w.k (utf.utf_fault_va >>> PGSHIFT) &&& PTE_COW ≠ 0) :
    ((allocAnswer M w).1 < 0 →
      pgfault M utf w =
        (Outcome.panic, ⟨(allocAnswer M w).2,
          w.log ++ [Event.trap SysNo.SYS_page_alloc 0 PFTEMP PTE_W 0 0], w.thisenv⟩)) ∧
    ((allocAnswer M w).1 = 0 → (mapAnswer M utf w).1 < 0 →
      pgfault M utf w =
        (Outcome.panic, ⟨(mapAnswer M utf w).2,
          w.log ++ [Event.trap SysNo.SYS_page_alloc 0 PFTEMP PTE_W 0 0,
            Event.memmove PFTEMP (ROUNDDOWN utf.utf_fault_va PGSIZE) PGSIZE,
            Event.trap SysNo.SYS_page_map 0 PFTEMP 0 (ROUNDDOWN utf.utf_fault_va PGSIZE) PTE_W],
          w.thisenv⟩)) ∧
    ((allocAnswer M w).1 = 0 → (mapAnswer M utf w).1 = 0 → (unmapAnswer M utf w).1 < 0 →
      pgfault M utf w =
        (Outcome.panic, ⟨(unmapAnswer M utf w).2,
          w.log ++ [Event.trap SysNo.SYS_page_alloc 0 PFTEMP PTE_W 0 0,
            Event.memmove PFTEMP (ROUNDDOWN utf.utf_fault_va PGSIZE) PGSIZE,
            Event.trap SysNo.SYS_page_map 0 PFTEMP 0 (ROUNDDOWN utf.utf_fault_va PGSIZE) PTE_W,
            Event.trap SysNo.SYS_page_unmap 0 PFTEMP 0 0 0],
          w.thisenv⟩)) ∧
    ((pgfault M utf w).1 = Outcome.ret () →
      (allocAnswer M w).1 = 0 ∧ (mapAnswer M utf w).1 = 0 ∧ (unmapAnswer M utf w).1 = 0) := by
  have hg : ¬ (utf.utf_err &&& FEC_WR = 0 ∨
      M.uvpt w.k (utf.utf_fault_va >>> PGSHIFT) &&& PTE_COW = 0) := by
    simp [hW, hC]
  have key := pgfault_outcome M utf w
  rw [if_neg hg] at key
  refine ⟨fun h1 => ?_, fun h1 h2 => ?_, fun h1 h2 h3 => ?_, fun hret => ?_⟩
  · rw [key, if_pos (ne_of_lt h1)]
  · rw [key, if_neg (not_not.mpr h1), if_pos (ne_of_lt h2)]
  · rw [key, if_neg (not_not.mpr h1), if_neg (not_not.mpr h2), if_pos (ne_of_lt h3)]
  · rw [key] at hret
    by_cases h1 : (allocAnswer M w).1 = 0
    · by_cases h2 : (mapAnswer M utf w).1 = 0
      · by_cases h3 : (unmapAnswer M utf w).1 = 0
        · exact ⟨h1, h2, h3⟩
        · rw [if_neg (not_not.mpr h1), if_neg (not_not.mpr h2), if_pos h3] at hret
          exact Outcome.noConfusion hret
      · rw [if_neg (not_not.mpr h1), if_pos h2] at hret
        exact Outcome.noConfusion hret
    · rw [if_pos h1] at hret
      exact Outcome.noConfusion hret

/-- Witness of C13: a write fault at `0x801234` on a COW-marked page; the kernel
answers page_alloc with `0` and page_map with `-4`. -/
theorem pgfault_failures_witness :
    ((allocAnswer (scriptMachine fun pn => if pn = 0x801 then 0x805 else 0)
        ⟨[0, -4], [], 0⟩).1 = 0 ∧
      (mapAnswer (scriptMachine fun pn => if pn = 0x801 then 0x805 else 0) ⟨0x801234, 7⟩
        ⟨[0, -4], [], 0⟩).1 < 0) ∧
    pgfault (scriptMachine fun pn => if pn = 0x801 then 0x805 else 0) ⟨0x801234, 7⟩
        ⟨[0, -4], [], 0⟩ =
      (Outcome.panic, ⟨(mapAnswer (scriptMachine fun pn => if pn = 0x801 then 0x805 else 0)
          ⟨0x801234, 7⟩ ⟨[0, -4], [], 0⟩).2,
        [] ++ [Event.trap SysNo.SYS_page_alloc 0 PFTEMP PTE_W 0 0,
          Event.memmove PFTEMP (ROUNDDOWN (UTrapframe.mk 0x801234 7).utf_fault_va PGSIZE) PGSIZE,
          Event.trap SysNo.SYS_page_map 0 PFTEMP 0
            (ROUNDDOWN (UTrapframe.mk 0x801234 7).utf_fault_va PGSIZE) PTE_W],
        0⟩) :=
  ⟨⟨by decide, by decide⟩,
    (pgfault_failures (scriptMachine fun pn => if pn = 0x801 then 0x805 else 0) ⟨0x801234, 7⟩
      ⟨[0, -4], [], 0⟩ (by decide) (by decide)).2.1 (by decide) (by decide)⟩

/-- The outcome of `duppage` in terms of the answers of the kernel. -/
theorem duppage_outcome {σ : Type} (M : Machine σ) (envid : Int) (pn : Nat) (w : World σ) :
    duppage M envid pn w =
      if M.uvpt w.k pn &&& PTE_P ≠ 0 ∧ M.uvpt w.k pn &&& PTE_U ≠ 0 then
        if M.uvpt w.k pn &&& PTE_W ≠ 0 ∨ M.uvpt w.k pn &&& PTE_COW ≠ 0 then
          if (childMapAnswer M envid pn PTE_COW w).1 ≠ 0 then
            (Outcome.panic, ⟨(childMapAnswer M envid pn PTE_COW w).2,
              w.log ++ [Event.trap SysNo.SYS_page_map 0 (pn * PGSIZE % WORD) (toU32 envid)
                (pn * PGSIZE % WORD) PTE_COW], w.thisenv⟩)
          else
            (if (selfMapAnswer M envid pn w).1 ≠ 0 then Outcome.panic else Outcome.ret 0,
              ⟨(selfMapAnswer M envid pn w).2,
              w.log ++ [Event.trap SysNo.SYS_page_map 0 (pn * PGSIZE % WORD) (toU32 envid)
                  (pn * PGSIZE % WORD) PTE_COW,
                Event.trap SysNo.SYS_page_map 0 (pn * PGSIZE % WORD) 0
                  (pn * PGSIZE % WORD) PTE_COW], w.thisenv⟩)
        else
          (if (childMapAnswer M envid pn 0 w).1 ≠ 0 then Outcome.panic else Outcome.ret 0,
            ⟨(childMapAnswer M envid pn 0 w).2,
            w.log ++ [Event.trap SysNo.SYS_page_map 0 (pn * PGSIZE % WORD) (toU32 envid)
              (pn * PGSIZE % WORD) 0], w.thisenv⟩)
      else (Outcome.ret 0, w) := by
  have t0 : toU32 0 = 0 := by decide
  by_cases hc : M.uvpt w.k pn &&& PTE_P ≠ 0 ∧ M.uvpt w.k pn &&& PTE_U ≠ 0
  · rw [if_pos hc]
    by_cases hw : M.uvpt w.k pn &&& PTE_W ≠ 0 ∨ M.uvpt w.k pn &&& PTE_COW ≠ 0
    · rw [if_pos hw]
      rcases lt_trichotomy (childMapAnswer M envid pn PTE_COW w).1 0 with h1 | h1 | h1
      · rw [if_pos (ne_of_lt h1)]
        simp only [childMapAnswer] at h1
        simp [duppage, hc, hw, Prog.bind, sys_page_map, syscall, t0, childMapAnswer, h1,
          not_lt.mpr (le_of_lt h1), panic]
      · rw [if_neg (not_not.mpr h1)]
        rcases lt_trichotomy (selfMapAnswer M envid pn w).1 0 with h2 | h2 | h2
        · rw [if_pos (ne_of_lt h2)]
          simp only [childMapAnswer, selfMapAnswer] at h1 h2
          simp [duppage, hc, hw, Prog.bind, sys_page_map, syscall, t0, childMapAnswer,
            selfMapAnswer, h1, h2, not_lt.mpr (le_of_lt h2), panic]
        · rw [if_neg (not_not.mpr h2)]
          simp only [childMapAnswer, selfMapAnswer] at h1 h2
          simp [duppage, hc, hw, Prog.bind, sys_page_map, syscall, t0, childMapAnswer,
            selfMapAnswer, h1, h2, Prog.pure]
        · rw [if_pos (ne_of_gt h2)]
          simp only [childMapAnswer, selfMapAnswer] at h1 h2
          simp [duppage, hc, hw, Prog.bind, sys_page_map, syscall, t0, childMapAnswer,
            selfMapAnswer, h1, h2]
      · rw [if_pos (ne_of_gt h1)]
        simp only [childMapAnswer] at h1
        simp [duppage, hc, hw, Prog.bind, sys_page_map, syscall, t0, childMapAnswer, h1]
    · rw [if_neg hw]
      rcases lt_trichotomy (childMapAnswer M envid pn 0 w).1 0 with h1 | h1 | h1
      · rw [if_pos (ne_of_lt h1)]
        simp only [childMapAnswer] at h1
        simp [duppage, hc, hw, Prog.bind, sys_page_map, syscall, t0, childMapAnswer, h1,
          not_lt.mpr (le_of_lt h1), panic]
      · rw [if_neg (not_not.mpr h1)]
        simp only [childMapAnswer] at h1
        simp [duppage, hc, hw, Prog.bind, sys_page_map, syscall, t0, childMapAnswer, h1,
          Prog.pure]
      · rw [if_pos (ne_of_gt h1)]
        simp only [childMapAnswer] at h1
        simp [duppage, hc, hw, Prog.bind, sys_page_map, syscall, t0, childMapAnswer, h1]
  · rw [if_neg hc]
    simp only [duppage, hc, if_false, Prog.pure]

/-- C14: `duppage` returns only with the value `0`.  For a page that is present,
user-accessible and writable or COW-marked: when the mapping into the child is
answered with a negative status `duppage` panics with that trap as its only
event (the parent is not re-mapped); when it succeeds and the mapping onto the
parent is answered with a negative status `duppage` panics; and when `duppage`
returns both calls were answered with `0`.  For a page that is present,
user-accessible, not writable and not COW-marked: when the mapping into the
child is answered with a negative status `duppage` panics, and when `duppage`
returns the call was answered with `0`. -/
theorem duppage_failures {σ : Type} (M : Machine σ) (envid : Int) (pn : Nat) (w : World σ) :
    (∀ v, (duppage M envid pn w).1 = Outcome.ret v → v = 0) ∧
    (M.uvpt w.k pn &&& PTE_P ≠ 0 ∧ M.uvpt w.k pn &&& PTE_U ≠ 0 →
      M.uvpt w.k pn &&& PTE_W ≠ 0 ∨ M.uvpt w.k pn &&& PTE_COW ≠ 0 →
      ((childMapAnswer M envid pn PTE_COW w).1 < 0 →
        duppage M envid pn w =
          (Outcome.panic, ⟨(childMapAnswer M envid pn PTE_COW w).2,
            w.log ++ [Event.trap SysNo.SYS_page_map 0 (pn * PGSIZE % WORD) (toU32 envid)
              (pn * PGSIZE % WORD) PTE_COW], w.thisenv⟩)) ∧
      ((childMapAnswer M envid pn PTE_COW w).1 = 0 → (selfMapAnswer M envid pn w).1 < 0 →
        duppage M envid pn w =
          (Outcome.panic, ⟨(selfMapAnswer M envid pn w).2,
            w.log ++ [Event.trap SysNo.SYS_page_map 0 (pn * PGSIZE % WORD) (toU32 envid)
                (pn * PGSIZE % WORD) PTE_COW,
              Event.trap SysNo.SYS_page_map 0 (pn * PGSIZE % WORD) 0
                (pn * PGSIZE % WORD) PTE_COW], w.thisenv⟩)) ∧
      ((duppage M envid pn w).1 = Outcome.ret 0 →
        (childMapAnswer M envid pn PTE_COW w).1 = 0 ∧ (selfMapAnswer M envid pn w).1 = 0)) ∧
    (M.uvpt w.k pn &&& PTE_P ≠ 0 ∧ M.uvpt w.k pn &&& PTE_U ≠ 0 →
      ¬ (M.uvpt w.k pn &&& PTE_W ≠ 0 ∨ M.uvpt w.k pn &&& PTE_COW ≠ 0) →
      ((childMapAnswer M envid pn 0 w).1 < 0 →
        duppage M envid pn w =
          (Outcome.panic, ⟨(childMapAnswer M envid pn 0 w).2,
            w.log ++ [Event.trap SysNo.SYS_page_map 0 (pn * PGSIZE % WORD) (toU32 envid)
              (pn * PGSIZE % WORD) 0], w.thisenv⟩)) ∧
      ((duppage M envid pn w).1 = Outcome.ret 0 → (childMapAnswer M envid pn 0 w).1 = 0)) := by
  have key := duppage_outcome M envid pn w
  refine ⟨fun v hv => ?_, fun hc hw => ⟨fun h1 => ?_, fun h1 h2 => ?_, fun hret => ?_⟩,
    fun hc hw => ⟨fun h1 => ?_, fun hret => ?_⟩⟩
  · rw [key] at hv
    split_ifs at hv <;> first
      | exact Outcome.noConfusion hv
      | (injection hv with hv; exact hv.symm)
  · rw [key, if_pos hc, if_pos hw, if_pos (ne_of_lt h1)]
  · rw [key, if_pos hc, if_pos hw, if_neg (not_not.mpr h1), if_pos (ne_of_lt h2)]
  · rw [key, if_pos hc, if_pos hw] at hret
    by_cases h1 : (childMapAnswer M envid pn PTE_COW w).1 = 0
    · by_cases h2 : (selfMapAnswer M envid pn w).1 = 0
      · exact ⟨h1, h2⟩
      · rw [if_neg (not_not.mpr h1), if_pos h2] at hret
        exact Outcome.noConfusion hret
    · rw [if_pos h1] at hret
      exact Outcome.noConfusion hret
  · rw [key, if_pos hc, if_neg hw, if_pos (ne_of_lt h1)]
  · rw [key, if_pos hc, if_neg hw] at hret
    by_cases h1 : (childMapAnswer M envid pn 0 w).1 = 0
    · exact h1
    · rw [if_pos h1] at hret
      exact Outcome.noConfusion hret

/-- Witness of C14: page 1 with entry `0x007`, child 4097, the mapping into the
child answered with `-4`: `duppage` panics and the parent is not re-mapped. -/
theorem duppage_failures_witness :
    (childMapAnswer (scriptMachine fun pn => if pn = 1 then 0x007 else 0) 4097 1 PTE_COW
        ⟨[-4, 0], [], 0⟩).1 < 0 ∧
    duppage (scriptMachine fun pn => if pn = 1 then 0x007 else 0) 4097 1 ⟨[-4, 0], [], 0⟩ =
      (Outcome.panic,
        ⟨(childMapAnswer (scriptMachine fun pn => if pn = 1 then 0x007 else 0) 4097 1 PTE_COW
            ⟨[-4, 0], [], 0⟩).2,
          [] ++ [Event.trap SysNo.SYS_page_map 0 (1 * PGSIZE % WORD) (toU32 4097)
            (1 * PGSIZE % WORD) PTE_COW], 0⟩) :=
  ⟨by decide,
    ((duppage_failures (scriptMachine fun pn => if pn = 1 then 0x007 else 0) 4097 1
      ⟨[-4, 0], [], 0⟩).2.1 (by decide) (by decide)).1 (by decide)⟩

/-! ## The handler installation of `fork` -/

/-- C15: whatever the world `fork` starts in and whatever the kernel answers,
the first event `fork` issues is the call `set_pgfault_handler(pgfault)`, made
without any test, and, the body of that library routine not calling the routine
again, this is the only such call among the events `fork` issues: the handler
is installed once, before the child-creation trap, which, when it is issued,
comes later in the log. -/
theorem fork_installs_handler_first {σ : Type} (M : Machine σ) (body : Prog σ Unit)
    (end_ : Nat) (w : World σ)
    (hb : ∀ w0, ∃ rest, (body w0).2.log = w0.log ++ rest ∧ Event.set_pgfault_handler ∉ rest) :
    ∃ rest, (fork M body end_ w).2.log = w.log ++ Event.set_pgfault_handler :: rest ∧
      Event.set_pgfault_handler ∉ rest := by
  obtain ⟨rb, hrb, hnot⟩ := hb ⟨w.k, w.log ++ [Event.set_pgfault_handler], w.thisenv⟩
  simp only [fork, Prog.bind, set_pgfault_handler]
  rcases hbw : body ⟨w.k, w.log ++ [Event.set_pgfault_handler], w.thisenv⟩ with ⟨o, w1⟩
  rw [hbw] at hrb
  simp only at hrb
  cases o with
  | panic => exact ⟨rb, by simp [hrb], hnot⟩
  | ret u =>
    simp only [sys_fork, syscall_check_eq, sys_getenvid, syscall_nocheck]
    by_cases hpos : 0 < (M.trap w1.k SysNo.SYS_fork end_ 0 0 0 0).1
    · refine ⟨rb ++ [Event.trap SysNo.SYS_fork end_ 0 0 0 0], ?_, ?_⟩
      · simp [hpos, hrb]
      · simp [hnot]
    · by_cases hneg : (M.trap w1.k SysNo.SYS_fork end_ 0 0 0 0).1 < 0
      · refine ⟨rb ++ [Event.trap SysNo.SYS_fork end_ 0 0 0 0], ?_, ?_⟩
        · simp [hpos, hneg, hrb, Prog.pure]
        · simp [hnot]
      · have hz : (M.trap w1.k SysNo.SYS_fork end_ 0 0 0 0).1 = 0 := by omega
        refine ⟨rb ++ [Event.trap SysNo.SYS_fork end_ 0 0 0 0,
          Event.trap SysNo.SYS_getenvid 0 0 0 0 0], ?_, ?_⟩
        · simp [hz, hrb, Prog.bind, syscall]
        · simp [hnot]

/-- Witness of C15: a process that has forked before (its log already holds an
installation and a child-creation trap) forks again; the body of the
installation issues nothing. -/
theorem fork_installs_handler_first_witness :
    ∃ rest, (fork (scriptMachine fun _ => 0) (Prog.pure ()) 0x800000
        ⟨[0, 4098], [Event.set_pgfault_handler, Event.trap SysNo.SYS_fork 0x800000 0 0 0 0],
          0⟩).2.log =
        [Event.set_pgfault_handler, Event.trap SysNo.SYS_fork 0x800000 0 0 0 0] ++
          Event.set_pgfault_handler :: rest ∧
      Event.set_pgfault_handler ∉ rest :=
  fork_installs_handler_first (scriptMachine fun _ => 0) (Prog.pure ()) 0x800000
    ⟨[0, 4098], [Event.set_pgfault_handler, Event.trap SysNo.SYS_fork 0x800000 0 0 0 0], 0⟩
    (fun w0 => ⟨[], by simp [Prog.pure], by simp⟩)

/-! ## The Present bit under the permission commands -/

/-- Setting a permission that has no Present bit leaves the Present bit of an
entry as it is. -/
theorem or_keeps_present (e p : Nat) (hp : p &&& PTE_P = 0) :
    (e ||| p) &&& PTE_P = e &&& PTE_P := by
  rw [Nat.and_distrib_right, hp, Nat.or_zero]

/-- Clearing a permission that has no Present bit leaves the Present bit of an
entry as it is. -/
theorem andnot_keeps_present (e p : Nat) (hp : p &&& PTE_P = 0) :
    (e &&& not32 p) &&& PTE_P = e &&& PTE_P := by
  have h : not32 p &&& PTE_P = PTE_P := by
    simp only [not32]
    rw [Nat.and_xor_distrib_right, hp]
    decide
  rw [Nat.and_assoc, h]

/-- The function `str2perm` never takes its panic branch, and the permission it
returns has the Present bit clear. -/
theorem str2perm_returns (s : List Char) :
    str2perm s = Outcome.ret (str2permLoop s 0 &&& not32 (char2perm 'P')) ∧
      (str2permLoop s 0 &&& not32 (char2perm 'P')) &&& PTE_P = 0 := by
  have hP : char2perm 'P' = PTE_P := by decide
  refine ⟨by simp [str2perm], ?_⟩
  rw [hP, Nat.and_assoc]
  have : not32 PTE_P &&& PTE_P = 0 := by decide
  rw [this, Nat.and_zero]

/-- One pass of the loop keeps the Present bit of every word and leaves the
words whose Present bit is clear as they are. -/
theorem changeOne_keeps_present (L : KernLayout) (va_start perm : Nat) (op : Bool) (cnt : Nat)
    (mem : Nat → Nat) (hp : perm &&& PTE_P = 0) (x : Nat) :
    (changeOne L va_start perm op cnt mem).2 x &&& PTE_P = mem x &&& PTE_P ∧
      (mem x &&& PTE_P = 0 → (changeOne L va_start perm op cnt mem).2 x = mem x) := by
  by_cases h1 : mem (L.kern_pgdir + 4 * PDX ((va_start + cnt * PGSIZE) % WORD)) &&& PTE_P ≠ 0
  · cases hk : L.KADDR (PTE_ADDR (mem (L.kern_pgdir + 4 * PDX ((va_start + cnt * PGSIZE) % WORD))))
      with
    | none =>
      simp [changeOne, h1, hk]
    | some table =>
      by_cases h2 : mem (table + 4 * PTX ((va_start + cnt * PGSIZE) % WORD)) &&& PTE_P ≠ 0
      · simp only [changeOne, if_pos h1, hk, if_pos h2]
        by_cases hx : x = table + 4 * PTX ((va_start + cnt * PGSIZE) % WORD)
        · subst hx
          simp only [if_true]
          refine ⟨?_, fun h0 => absurd h0 h2⟩
          cases op
          · simp only [Bool.false_eq_true, if_false]
            exact andnot_keeps_present _ _ hp
          · simp only [if_true]
            exact or_keeps_present _ _ hp
        · simp only [hx, if_false]
          exact ⟨trivial, fun _ => trivial⟩
      · simp only [changeOne, if_pos h1, hk, if_neg h2]
        exact ⟨trivial, fun _ => trivial⟩
  · simp only [changeOne, if_neg h1]
    exact ⟨trivial, fun _ => trivial⟩

/-- The loop keeps the Present bit of every word and leaves the words whose
Present bit is clear as they are. -/
theorem changeLoop_keeps_present (L : KernLayout) (va_start perm : Nat) (op : Bool)
    (hp : perm &&& PTE_P = 0) (todo cnt : Nat) (mem : Nat → Nat) (x : Nat) :
    (changeLoop L va_start perm op todo cnt mem).2 x &&& PTE_P = mem x &&& PTE_P ∧
      (mem x &&& PTE_P = 0 → (changeLoop L va_start perm op todo cnt mem).2 x = mem x) := by
  induction todo generalizing cnt mem with
  | zero => exact ⟨rfl, fun _ => rfl⟩
  | succ todo ih =>
    have h1 := changeOne_keeps_present L va_start perm op cnt mem hp x
    simp only [changeLoop]
    rcases hc : changeOne L va_start perm op cnt mem with ⟨o, mem1⟩
    rw [hc] at h1
    simp only at h1
    cases o with
    | panic => exact h1
    | ret u =>
      have h2 := ih (cnt + 1) mem1
      simp only
      refine ⟨by rw [h2.1, h1.1], fun h0 => ?_⟩
      rw [h2.2 (by rw [h1.1]; exact h0), h1.2 h0]

/-- C16: the permission commands never change the Present bit.  For every
string `str2perm` returns a permission whose Present bit is clear; setting or
clearing such a permission leaves the Present bit of an entry as it is; and
whatever its arguments, and whether it returns or panics, `change_permissions`
leaves the Present bit of every word of memory as it was and leaves a word
whose Present bit is clear entirely unchanged. -/
theorem change_permissions_keeps_present (L : KernLayout) (argc : Int)
    (argv : List (List Char)) (op : Bool) (mem : Nat → Nat) :
    (∀ s, ∃ p, str2perm s = Outcome.ret p ∧ p &&& PTE_P = 0) ∧
    (∀ e p, p &&& PTE_P = 0 →
      (e ||| p) &&& PTE_P = e &&& PTE_P ∧ (e &&& not32 p) &&& PTE_P = e &&& PTE_P) ∧
    (∀ x, (change_permissions L argc argv op mem).2 x &&& PTE_P = mem x &&& PTE_P) ∧
    (∀ x, mem x &&& PTE_P = 0 → (change_permissions L argc argv op mem).2 x = mem x) := by
  have key : ∀ x, (change_permissions L argc argv op mem).2 x &&& PTE_P = mem x &&& PTE_P ∧
      (mem x &&& PTE_P = 0 → (change_permissions L argc argv op mem).2 x = mem x) := by
    intro x
    simp only [change_permissions]
    split
    · exact ⟨rfl, fun _ => rfl⟩
    · rename_i va_start n_pages _
      obtain ⟨hs, hp⟩ := str2perm_returns (argv.getD (argc - 1).toNat [])
      rw [hs]
      exact changeLoop_keeps_present L va_start _ op hp n_pages 0 mem x
  exact ⟨fun s => ⟨_, (str2perm_returns s).1, (str2perm_returns s).2⟩,
    fun e p hp => ⟨or_keeps_present e p hp, andnot_keeps_present e p hp⟩,
    fun x => (key x).1, fun x => (key x).2⟩

/-! ## `str2unum` -/

theorem wrapI32_small (x : Int) (h0 : 0 ≤ x) (h1 : x < 2 ^ 31) : wrapI32 x = x := by
  simp only [wrapI32]
  omega

theorem decimalValue_cons (c : Char) (cs : List Char) :
    decimalValue (c :: cs) = decimalValue cs + 10 ^ cs.length * decDigit c := by
  simp [decimalValue, Nat.ofDigits_append]

theorem hexValue_cons (c : Char) (cs : List Char) :
    hexValue (c :: cs) = hexValue cs + 16 ^ cs.length * hexDigit c := by
  simp [hexValue, Nat.ofDigits_append]

theorem char_codes : '0'.toNat = 48 ∧ '9'.toNat = 57 ∧ 'a'.toNat = 97 ∧ 'f'.toNat = 102 := by
  decide

/-- The decimal loop on a string of digits whose value, after the digits already
read, fits in an `int`: it reaches the end with that value. -/
theorem str2unumDec_digits (s : List Char) (acc : Nat) (hs : ∀ c ∈ s, isDec c)
    (hv : acc * 10 ^ s.length + decimalValue s < 2 ^ 31) :
    str2unumDec s (acc : Int) = ([], ((acc * 10 ^ s.length + decimalValue s : Nat) : Int)) := by
  induction s generalizing acc with
  | nil => simp [str2unumDec, decimalValue]
  | cons c cs ih =>
    obtain ⟨h0, h9, _, _⟩ := char_codes
    have hc : isDec c := hs c (List.mem_cons_self _ _)
    have hcs : ∀ d ∈ cs, isDec d := fun d hd => hs d (List.mem_cons_of_mem _ hd)
    have hpos : 0 < 10 ^ cs.length := Nat.pow_pos (by norm_num)
    have hp : 10 ^ (c :: cs).length = 10 ^ cs.length * 10 := by
      rw [List.length_cons, pow_succ]
    rw [decimalValue_cons, hp] at hv ⊢
    have hle : (10 * acc + decDigit c) * 1 ≤ (10 * acc + decDigit c) * 10 ^ cs.length :=
      Nat.mul_le_mul_left _ hpos
    have heq : (10 * acc + decDigit c) * 10 ^ cs.length + decimalValue cs =
        acc * (10 ^ cs.length * 10) + (decimalValue cs + 10 ^ cs.length * decDigit c) := by ring
    have hsmall : 10 * acc + decDigit c < 2 ^ 31 := by omega
    have h1 : ((decDigit c : Nat) : Int) = (c.toNat : Int) - ('0'.toNat : Int) := by
      simp only [decDigit]
      have := hc.1
      omega
    have hd : wrapI32 (10 * (acc : Int) + ((c.toNat : Int) - ('0'.toNat : Int))) =
        ((10 * acc + decDigit c : Nat) : Int) := by
      rw [← h1, wrapI32_small]
      · push_cast; rfl
      · omega
      · exact_mod_cast hsmall
    have hcond : '0'.toNat ≤ c.toNat ∧ c.toNat ≤ '9'.toNat := hc
    rw [str2unumDec, if_pos hcond, hd, ih (10 * acc + decDigit c) hcs (by omega), heq]

/-- The decimal loop on a string with a character that is no digit stops before
the end of the string. -/
theorem str2unumDec_stops (s : List Char) (acc : Int) (hs : ∃ c ∈ s, ¬ isDec c) :
    (str2unumDec s acc).1 ≠ [] := by
  induction s generalizing acc with
  | nil => obtain ⟨c, hc, _⟩ := hs; simp at hc
  | cons c cs ih =>
    by_cases hc : '0'.toNat ≤ c.toNat ∧ c.toNat ≤ '9'.toNat
    · rw [str2unumDec, if_pos hc]
      apply ih
      obtain ⟨d, hd, hnd⟩ := hs
      rcases List.mem_cons.mp hd with rfl | h
      · exact absurd hc hnd
      · exact ⟨d, h, hnd⟩
    · rw [str2unumDec, if_neg hc]
      simp

/-- The hexadecimal loop on a string of digits whose value, after the digits
already read, fits in an `int`: it reaches the end with that value. -/
theorem str2unumHex_digits (s : List Char) (acc : Nat) (hs : ∀ c ∈ s, isHex c)
    (hv : acc * 16 ^ s.length + hexValue s < 2 ^ 31) :
    str2unumHex s (acc : Int) = ([], ((acc * 16 ^ s.length + hexValue s : Nat) : Int)) := by
  induction s generalizing acc with
  | nil => simp [str2unumHex, hexValue]
  | cons c cs ih =>
    obtain ⟨h0, h9, ha, hf⟩ := char_codes
    have hc : isHex c := hs c (List.mem_cons_self _ _)
    have hcs : ∀ d ∈ cs, isHex d := fun d hd => hs d (List.mem_cons_of_mem _ hd)
    have hpos : 0 < 16 ^ cs.length := Nat.pow_pos (by norm_num)
    have hp : 16 ^ (c :: cs).length = 16 ^ cs.length * 16 := by
      rw [List.length_cons, pow_succ]
    rw [hexValue_cons, hp] at hv ⊢
    have hle : (16 * acc + hexDigit c) * 1 ≤ (16 * acc + hexDigit c) * 16 ^ cs.length :=
      Nat.mul_le_mul_left _ hpos
    have heq : (16 * acc + hexDigit c) * 16 ^ cs.length + hexValue cs =
        acc * (16 ^ cs.length * 16) + (hexValue cs + 16 ^ cs.length * hexDigit c) := by ring
    have hsmall : 16 * acc + hexDigit c < 2 ^ 31 := by omega
    have h1 : ((hexDigit c : Nat) : Int) = (c.toNat : Int) -
        (if c.toNat ≤ '9'.toNat then ('0'.toNat : Int) else ('a'.toNat : Int) - 10) := by
      simp only [hexDigit, isHex, isDec, h0, h9, ha, hf] at hc ⊢
      split_ifs with h
      · omega
      · omega
    have hd : wrapI32 (16 * (acc : Int) + ((c.toNat : Int) -
        (if c.toNat ≤ '9'.toNat then ('0'.toNat : Int) else ('a'.toNat : Int) - 10))) =
        ((16 * acc + hexDigit c : Nat) : Int) := by
      rw [← h1, wrapI32_small]
      · push_cast; rfl
      · omega
      · exact_mod_cast hsmall
    have hcond : ('0'.toNat ≤ c.toNat ∧ c.toNat ≤ '9'.toNat) ∨
        ('a'.toNat ≤ c.toNat ∧ c.toNat ≤ 'f'.toNat) := hc
    rw [str2unumHex, if_pos hcond, hd, ih (16 * acc + hexDigit c) hcs (by omega), heq]

/-- The hexadecimal loop on a string with a character that is no digit stops
before the end of the string. -/
theorem str2unumHex_stops (s : List Char) (acc : Int) (hs : ∃ c ∈ s, ¬ isHex c) :
    (str2unumHex s acc).1 ≠ [] := by
  induction s generalizing acc with
  | nil => obtain ⟨c, hc, _⟩ := hs; simp at hc
  | cons c cs ih =>
    by_cases hc : ('0'.toNat ≤ c.toNat ∧ c.toNat ≤ '9'.toNat) ∨
        ('a'.toNat ≤ c.toNat ∧ c.toNat ≤ 'f'.toNat)
    · rw [str2unumHex, if_pos hc]
      apply ih
      obtain ⟨d, hd, hnd⟩ := hs
      rcases List.mem_cons.mp hd with rfl | h
      · exact absurd hc hnd
      · exact ⟨d, h, hnd⟩
    · rw [str2unumHex, if_neg hc]
      simp

/-- C19: `str2unum` turns a string into its number.  For a string of decimal
digits whose value fits in an `int`, `str2unum(s, 10)` is that value; for a
string of the digits `0`-`9` and `a`-`f` whose value fits in an `int`,
`str2unum(s, 16)` is that value; and for a string with a character outside the
digits of the base the result is `-1`. -/
theorem str2unum_value (s : List Char) :
    ((∀ c ∈ s, isDec c) → decimalValue s < 2 ^ 31 → str2unum s 10 = (decimalValue s : Int)) ∧
    ((∀ c ∈ s, isHex c) → hexValue s < 2 ^ 31 → str2unum s 16 = (hexValue s : Int)) ∧
    ((∃ c ∈ s, ¬ isDec c) → str2unum s 10 = -1) ∧
    ((∃ c ∈ s, ¬ isHex c) → str2unum s 16 = -1) := by
  refine ⟨fun hs hv => ?_, fun hs hv => ?_, fun hs => ?_, fun hs => ?_⟩
  · have h := str2unumDec_digits s 0 hs (by simpa using hv)
    simp only [Nat.cast_zero] at h
    simp [str2unum, h]
  · have h := str2unumHex_digits s 0 hs (by simpa using hv)
    simp only [Nat.cast_zero] at h
    simp [str2unum, h]
  · have h := str2unumDec_stops s 0 hs
    simp [str2unum, h]
  · have h := str2unumHex_stops s 0 hs
    simp [str2unum, h]

/-- Witness of C19: `"4096"` in base 10, `"7ff000"` in base 16, and `"0x1f"` in
base 10 and `"1F"` in base 16, which hold a character that is no digit of the
base. -/
theorem str2unum_value_witness :
    str2unum ['4', '0', '9', '6'] 10 = (decimalValue ['4', '0', '9', '6'] : Int) ∧
    decimalValue ['4', '0', '9', '6'] = 4096 ∧
    str2unum ['7', 'f', 'f', '0', '0', '0'] 16 = (hexValue ['7', 'f', 'f', '0', '0', '0'] : Int) ∧
    hexValue ['7', 'f', 'f', '0', '0', '0'] = 0x7ff000 ∧
    str2unum ['0', 'x', '1', 'f'] 10 = -1 ∧
    str2unum ['1', 'F'] 16 = -1 :=
  ⟨(str2unum_value ['4', '0', '9', '6']).1 (by decide) (by decide), by decide,
    (str2unum_value ['7', 'f', 'f', '0', '0', '0']).2.1 (by decide) (by decide), by decide,
    (str2unum_value ['0', 'x', '1', 'f']).2.2.1 ⟨'x', by decide, by decide⟩,
    (str2unum_value ['1', 'F']).2.2.2 ⟨'F', by decide, by decide⟩⟩

/-! ## Arguments the monitor should refuse -/

/-- C17 (evaluation at the failing input): `'X'` is no permission character
(`char2perm` answers `-1`, all 32 bits set), yet `str2perm("X")` does not panic:
it returns `0xFFFFFFFE`, every permission bit but Present. -/
theorem str2perm_accepts_illegal_char :
    char2perm 'X' = WORD - 1 ∧
    str2perm ['X'] = Outcome.ret 0xFFFFFFFE ∧
    str2perm ['X'] ≠ Outcome.panic := by
  decide

/-- C18 (evaluation at the failing input): for the arguments `smps 0xzz` the
first argument has the prefix `0x` and no hexadecimal digits, `str2unum`
answers `-1` for it, and `validate_and_retrieve` does not panic: it produces
`va_start = 0xFFFFF000` and `n_pages = 1`. -/
theorem validate_and_retrieve_accepts_0xzz :
    HEX_VAL ['0', 'x', 'z', 'z'] = -1 ∧
    validate_and_retrieve 2 [['s', 'm', 'p', 's'], ['0', 'x', 'z', 'z']] =
      Outcome.ret (0xFFFFF000, 1) ∧
    validate_and_retrieve 2 [['s', 'm', 'p', 's'], ['0', 'x', 'z', 'z']] ≠ Outcome.panic := by
  decide

/-! ## `num2binstr` -/

theorem binary_digit (num : Nat) :
    Char.ofNat (num % 2 + '0'.toNat) = if num.testBit 0 then '1' else '0' := by
  rw [Nat.testBit_zero]
  rcases Nat.mod_two_eq_zero_or_one num with h | h
  · rw [h]; decide
  · rw [h]; decide

/-- C20: for every `num`, every buffer and every bit count `n ≥ 0`, with fuel
for more than `n` tests of the loop condition `num2binstr` ends after exactly
`n` iterations; afterwards `store[i]`, for `0 ≤ i < n`, is `'1'` when bit
`n - 1 - i` of `num` is set and `'0'` otherwise, and every position outside
`store[0..n)` holds what it held before. -/
theorem num2binstr_writes_bits (fuel n num : Nat) (store : Int → Char) (hf : n < fuel) :
    ∃ st, num2binstr fuel num store (n : Int) = some (st, n) ∧
      (∀ i : Nat, i < n → st (i : Int) = if num.testBit (n - 1 - i) then '1' else '0') ∧
      (∀ j : Int, j < 0 ∨ (n : Int) ≤ j → st j = store j) := by
  induction n generalizing fuel num store with
  | zero =>
    obtain ⟨f, rfl⟩ : ∃ f, fuel = f + 1 := ⟨fuel - 1, by omega⟩
    refine ⟨store, ?_, fun i hi => absurd hi (Nat.not_lt_zero i), fun _ _ => rfl⟩
    simp [num2binstr]
  | succ n ih =>
    obtain ⟨f, rfl⟩ : ∃ f, fuel = f + 1 := ⟨fuel - 1, by omega⟩
    have hbit : (((n + 1 : Nat) : Int)) ≠ 0 := by omega
    have hpred : (((n + 1 : Nat) : Int)) - 1 = (n : Int) := by omega
    obtain ⟨st, hrun, hin, hout⟩ := ih f (num / 2)
      (fun i => if i = (n : Int) then Char.ofNat (num % 2 + '0'.toNat) else store i) (by omega)
    refine ⟨st, ?_, ?_, ?_⟩
    · rw [num2binstr, if_pos hbit, hpred, hrun]
    · intro i hi
      by_cases hlast : i = n
      · subst hlast
        rw [hout (i : Int) (Or.inr (le_refl _))]
        simp only [if_true]
        have : i + 1 - 1 - i = 0 := by omega
        rw [this]
        exact binary_digit num
      · have hlt : i < n := by omega
        rw [hin i hlt]
        have : n + 1 - 1 - i = (n - 1 - i) + 1 := by omega
        rw [this, Nat.testBit_succ]
    · intro j hj
      rw [hout j (by omega)]
      have : j ≠ (n : Int) := by omega
      simp only [this, if_false]

/-- Witness of C20: the nine permission bits of `0x005`, as `mon_showmappings`
asks for them, with fuel 10. -/
theorem num2binstr_writes_bits_witness :
    ∃ st, num2binstr 10 0x005 (fun _ => 'x') ((9 : Nat) : Int) = some (st, 9) ∧
      (∀ i : Nat, i < 9 → st (i : Int) = if (0x005 : Nat).testBit (9 - 1 - i) then '1' else '0') ∧
      (∀ j : Int, j < 0 ∨ ((9 : Nat) : Int) ≤ j → st j = (fun _ => 'x') j) :=
  num2binstr_writes_bits 10 9 0x005 (fun _ => 'x') (by decide)

/-! ## The page checked and the page repaired -/

/-- C21: in `pgfault` the page that is checked is the page that is repaired.
For every fault address `a` (every 32-bit address in particular), with
`origin = ROUNDDOWN(a, PGSIZE)`: `origin` is a multiple of `PGSIZE`,
`origin ≤ a < origin + PGSIZE`, a 32-bit `a` gives a 32-bit `origin`, and
`a >> PGSHIFT = origin >> PGSHIFT`.  In the handler: the entry whose COW marker
is tested is the entry of index `origin >> PGSHIFT` (the handler panics with the
world untouched exactly when the fault is no write or that entry lacks the
marker); every copy the handler issues reads `PGSIZE` bytes from `origin`, and
every page_map it issues has `origin` as destination; and when the fault is a
write, that entry carries the marker and the three calls succeed, the handler
returns after the copy from `origin` and the re-mapping of `origin`. -/
theorem pgfault_checks_repaired_page {σ : Type} (M : Machine σ) (a err : Nat) (w : World σ) :
    ROUNDDOWN a PGSIZE % PGSIZE = 0 ∧
    ROUNDDOWN a PGSIZE ≤ a ∧ a < ROUNDDOWN a PGSIZE + PGSIZE ∧
    (a < WORD → ROUNDDOWN a PGSIZE < WORD) ∧
    a >>> PGSHIFT = ROUNDDOWN a PGSIZE >>> PGSHIFT ∧
    (pgfault M ⟨a, err⟩ w = (Outcome.panic, w) ↔
      err &&& FEC_WR = 0 ∨ M.uvpt w.k (ROUNDDOWN a PGSIZE >>> PGSHIFT) &&& PTE_COW = 0) ∧
    (∃ rest, (pgfault M ⟨a, err⟩ w).2.log = w.log ++ rest ∧
      (∀ dst src n, Event.memmove dst src n ∈ rest → src = ROUNDDOWN a PGSIZE ∧ n = PGSIZE) ∧
      (∀ a1 a2 a3 a4 a5, Event.trap SysNo.SYS_page_map a1 a2 a3 a4 a5 ∈ rest →
        a4 = ROUNDDOWN a PGSIZE)) ∧
    (err &&& FEC_WR ≠ 0 →
      M.uvpt w.k (ROUNDDOWN a PGSIZE >>> PGSHIFT) &&& PTE_COW ≠ 0 →
      (allocAnswer M w).1 = 0 → (mapAnswer M ⟨a, err⟩ w).1 = 0 →
      (unmapAnswer M ⟨a, err⟩ w).1 = 0 →
      pgfault M ⟨a, err⟩ w =
        (Outcome.ret (), ⟨(unmapAnswer M ⟨a, err⟩ w).2,
          w.log ++ [Event.trap SysNo.SYS_page_alloc 0 PFTEMP PTE_W 0 0,
            Event.memmove PFTEMP (ROUNDDOWN a PGSIZE) PGSIZE,
            Event.trap SysNo.SYS_page_map 0 PFTEMP 0 (ROUNDDOWN a PGSIZE) PTE_W,
            Event.trap SysNo.SYS_page_unmap 0 PFTEMP 0 0 0],
          w.thisenv⟩)) := by
  have hmod : ROUNDDOWN a PGSIZE % PGSIZE = 0 := (rounddown_page a).1
  have hdiv : ROUNDDOWN a PGSIZE / PGSIZE = a / PGSIZE := (rounddown_page a).2
  have hle : ROUNDDOWN a PGSIZE ≤ a := by
    simp only [ROUNDDOWN]
    omega
  have hlt : a < ROUNDDOWN a PGSIZE + PGSIZE := by
    simp only [ROUNDDOWN, PGSIZE]
    omega
  have hshift : a >>> PGSHIFT = ROUNDDOWN a PGSIZE >>> PGSHIFT := by
    rw [shift_is_page, shift_is_page, hdiv]
  have key := pgfault_outcome M ⟨a, err⟩ w
  simp only [hshift] at key
  refine ⟨hmod, hle, hlt, fun h => lt_of_le_of_lt hle h, hshift, ?_, ?_, ?_⟩
  · by_cases hg : err &&& FEC_WR = 0 ∨
        M.uvpt w.k (ROUNDDOWN a PGSIZE >>> PGSHIFT) &&& PTE_COW = 0
    · rw [key, if_pos hg]
      exact ⟨fun _ => hg, fun _ => rfl⟩
    · refine ⟨fun h => ?_, fun h => absurd h hg⟩
      have hW : (UTrapframe.mk a err).utf_err &&& FEC_WR ≠ 0 := fun h0 => hg (Or.inl h0)
      have hC : M.uvpt w.k ((UTrapframe.mk a err).utf_fault_va >>> PGSHIFT) &&& PTE_COW ≠ 0 := by
        simp only [hshift]
        exact fun h0 => hg (Or.inr h0)
      obtain ⟨rest, hrest⟩ := pgfault_starts_with_alloc M ⟨a, err⟩ w hW hC
      rw [h] at hrest
      have hlen := congrArg List.length hrest
      simp at hlen
  · rw [key]
    split_ifs
    · exact ⟨[], by simp, by simp, by simp⟩
    · exact ⟨_, rfl, by simp, by simp⟩
    · refine ⟨_, rfl, ?_, ?_⟩
      · intro dst src n h
        simp at h
        exact ⟨h.2.1, h.2.2⟩
      · intro a1 a2 a3 a4 a5 h
        simp at h
        exact h.2.2.2.1
    · refine ⟨_, rfl, ?_, ?_⟩
      · intro dst src n h
        simp at h
        exact ⟨h.2.1, h.2.2⟩
      · intro a1 a2 a3 a4 a5 h
        simp at h
        exact h.2.2.2.1
    · refine ⟨_, rfl, ?_, ?_⟩
      · intro dst src n h
        simp at h
        exact ⟨h.2.1, h.2.2⟩
      · intro a1 a2 a3 a4 a5 h
        simp at h
        exact h.2.2.2.1
  · intro hW hC h1 h2 h3
    have hg : ¬ (err &&& FEC_WR = 0 ∨
        M.uvpt w.k (ROUNDDOWN a PGSIZE >>> PGSHIFT) &&& PTE_COW = 0) := by
      simp [hW, hC]
    rw [key, if_neg hg, if_neg (not_not.mpr h1), if_neg (not_not.mpr h2),
      if_neg (not_not.mpr h3)]

/-- Witness of C21: a write fault (error code 7) at `0x801234`, whose page
starts at `0x801000` and has the index `0x801`; the entry of that page is
COW-marked and the three calls are answered with `0`. -/
theorem pgfault_checks_repaired_page_witness :
    (ROUNDDOWN 0x801234 PGSIZE = 0x801000 ∧ ROUNDDOWN 0x801234 PGSIZE >>> PGSHIFT = 0x801) ∧
    pgfault (scriptMachine fun pn => if pn = 0x801 then 0x805 else 0) ⟨0x801234, 7⟩
        ⟨[0, 0, 0], [], 0⟩ =
      (Outcome.ret (),
        ⟨(unmapAnswer (scriptMachine fun pn => if pn = 0x801 then 0x805 else 0) ⟨0x801234, 7⟩
            ⟨[0, 0, 0], [], 0⟩).2,
          [] ++ [Event.trap SysNo.SYS_page_alloc 0 PFTEMP PTE_W 0 0,
            Event.memmove PFTEMP (ROUNDDOWN 0x801234 PGSIZE) PGSIZE,
            Event.trap SysNo.SYS_page_map 0 PFTEMP 0 (ROUNDDOWN 0x801234 PGSIZE) PTE_W,
            Event.trap SysNo.SYS_page_unmap 0 PFTEMP 0 0 0],
          0⟩) :=
  ⟨by decide,
    (pgfault_checks_repaired_page (scriptMachine fun pn => if pn = 0x801 then 0x805 else 0)
      0x801234 7 ⟨[0, 0, 0], [], 0⟩).2.2.2.2.2.2.2 (by decide) (by decide) (by decide)
      (by decide) (by decide)⟩

end Jos
